import Mathlib

/-!
# Sublime Text project generator: embedding and verification

Shallow embedding of `cmExtraSublimeTextGenerator.cxx`.

Conventions of the embedding:

* `std::string` is `String` (a sequence of characters), `std::vector<T>` is `List T`,
  `push_back` appends at the end, `+=` on strings is `++` / `String.push`.
* A counting loop `for (unsigned int i = 0; i < v.size(); i++) body` is a left fold of
  `body` over `List.range v.size`; the element `v[i]` is read with `List.getD`, the index
  tests `i+1 < v.size()` and `i+1 != v.size()` are kept inside the body as written.
  The counter is a natural number: sizes stay below `2^32`, where the `unsigned int`
  counter never wraps.
* An iterator loop `for (it = v.begin(); it != v.end(); it++)` is a recursion / fold over
  the list in order; `continue` returns the loop state unchanged.
* Classes declared outside these two source files (`cmMakefile`, `cmLocalGenerator`,
  `cmTarget`, `cmGeneratedFileStream`) are modelled from the specification.
-/

namespace SublimeText

/-! ## String helpers -/

/-- The function `escapeStringForJSON` (lines 70-81): walk over the indices of `str`,
append a backslash before a backslash or a double quote, then append the character. -/
def escapeStringForJSON (str : String) : String :=
  (List.range str.length).foldl
    (fun outStr i =>
      let c := str.data.getD i default
      let outStr := if c = '\\' ∨ c = '"' then outStr.push '\\' else outStr
      outStr.push c)
    ""

/-- Search of `std::string::find` from a running position: the lowest position at which
`pat` starts, `none` standing for `npos`. -/
def stdFindFrom (pat : List Char) : List Char → Nat → Option Nat
  | [], pos => if pat.isPrefixOf [] then some pos else none
  | c :: rest, pos =>
    if pat.isPrefixOf (c :: rest) then some pos else stdFindFrom pat rest (pos + 1)

/-- The call `str.find(pat)` of `std::string`; `none` stands for `std::string::npos`. -/
def stdFind (str pat : String) : Option Nat :=
  stdFindFrom pat.data str.data 0

/-! ## Descriptor model (lines 84-134) -/

/-- Folders section object: `struct SublimeTextProject::Folder`. -/
structure SublimeTextProject.Folder where
  path : String := ""
  folder_exclude_patterns : List String := []
  file_exclude_patterns : List String := []
  deriving DecidableEq, Repr

/-- Build-systems section object: `struct SublimeTextProject::BuildSystem`; the
constructor sets `shell` to false. -/
structure SublimeTextProject.BuildSystem where
  name : String := ""
  working_dir : String := ""
  cmd : List String := []
  shell : Bool := false
  deriving DecidableEq, Repr

/-- The project descriptor: `struct SublimeTextProject`. -/
structure SublimeTextProject where
  filename : String := ""
  name : String := ""
  folders : List SublimeTextProject.Folder := []
  build_systems : List SublimeTextProject.BuildSystem := []
  deriving DecidableEq, Repr

namespace SublimeTextProject

instance : Inhabited Folder := ⟨{}⟩

instance : Inhabited BuildSystem := ⟨{}⟩

/-- Method `Folder::SetPath` (lines 136-140). -/
def Folder.SetPath (self : Folder) (folder_path : String) : Folder :=
  { self with path := folder_path }

/-- Method `Folder::AddFolderExcludePattern` (lines 142-146). -/
def Folder.AddFolderExcludePattern (self : Folder) (pattern : String) : Folder :=
  { self with folder_exclude_patterns := self.folder_exclude_patterns ++ [pattern] }

/-- Method `Folder::AddFileExcludePattern` (lines 148-152). -/
def Folder.AddFileExcludePattern (self : Folder) (pattern : String) : Folder :=
  { self with file_exclude_patterns := self.file_exclude_patterns ++ [pattern] }

/-- Method `BuildSystem::SetShell` (lines 154-158). -/
def BuildSystem.SetShell (self : BuildSystem) (in_shell : Bool) : BuildSystem :=
  { self with shell := in_shell }

/-- Method `BuildSystem::SetName` (lines 160-164). -/
def BuildSystem.SetName (self : BuildSystem) (bs_name : String) : BuildSystem :=
  { self with name := bs_name }

/-- Method `BuildSystem::SetWorkingDirectory` (lines 166-170). -/
def BuildSystem.SetWorkingDirectory (self : BuildSystem) (dir : String) : BuildSystem :=
  { self with working_dir := dir }

/-- Method `BuildSystem::AddToCommand` (lines 172-176). -/
def BuildSystem.AddToCommand (self : BuildSystem) (part : String) : BuildSystem :=
  { self with cmd := self.cmd ++ [part] }

/-- Loop of lines 197-204, 304-311 and 316-323: append every element of `v`, escaped and
quoted, followed by `", "` when `i+1 < v.size()`. -/
def appendQuotedElements (v : List String) (acc : String) : String :=
  (List.range v.length).foldl
    (fun acc i =>
      let jElement := escapeStringForJSON (v.getD i "")
      let acc := acc ++ ("\"" ++ jElement ++ "\"")
      if i + 1 < v.length then acc ++ ", " else acc)
    acc

/-- Method `BuildSystem::GenerateString` (lines 178-209). -/
def BuildSystem.GenerateString (self : BuildSystem) : String :=
  let jName := escapeStringForJSON self.name
  let jWorkingDir := escapeStringForJSON self.working_dir
  let bss := ""
  let bss := bss ++ "        \x7b\n"
  let bss := bss ++ ("            \"name\": \"" ++ jName ++ "\",\n")
  let bss := bss ++ ("            \"working_dir\": \"" ++ jWorkingDir ++ "\",\n")
  let bss := if self.shell then bss ++ "            \"shell\": true,\n" else bss
  let bss := bss ++ "            \"cmd\": [ "
  let bss := appendQuotedElements self.cmd bss
  let bss := bss ++ " ]\n"
  let bss := bss ++ "        \x7d"
  bss

/-- Method `Folder::GenerateString` (lines 292-329). -/
def Folder.GenerateString (self : Folder) : String :=
  let jPath := escapeStringForJSON self.path
  let fs := ""
  let fs := fs ++ "        \x7b\n"
  let fs := fs ++ ("            \"path\": \"" ++ jPath ++ "\",\n")
  let fs := fs ++ "            \"folder_exclude_patterns\": [ "
  let fs := appendQuotedElements self.folder_exclude_patterns fs
  let fs := fs ++ " ],\n"
  let fs := fs ++ "            \"file_exclude_patterns\": [ "
  let fs := appendQuotedElements self.file_exclude_patterns fs
  let fs := fs ++ " ]\n"
  let fs := fs ++ "        \x7d"
  fs

/-- Method `SetName` (lines 211-214). -/
def SetName (self : SublimeTextProject) (projectName : String) : SublimeTextProject :=
  { self with name := projectName }

/-- Method `AddBuildSystem` (lines 235-238). -/
def AddBuildSystem (self : SublimeTextProject) (bs : BuildSystem) : SublimeTextProject :=
  { self with build_systems := self.build_systems ++ [bs] }

/-- Method `AddFolder(Folder&)` (lines 240-244). -/
def AddFolder (self : SublimeTextProject) (folder : Folder) : SublimeTextProject :=
  { self with folders := self.folders ++ [folder] }

/-- Loop of lines 258-266 and 276-285: append the rendering of every element `v[i]`, then
`","` when `i+1 != v.size()`, then a line break. -/
def appendObjects {α : Type} [Inhabited α] (render : α → String) (v : List α)
    (text : String) : String :=
  (List.range v.length).foldl
    (fun text i =>
      let text := text ++ render (v.getD i default)
      let text := if i + 1 ≠ v.length then text ++ "," else text
      text ++ "\n")
    text

/-- Method `GenerateProjectText` (lines 246-290). -/
def GenerateProjectText (self : SublimeTextProject) : String :=
  let jName := escapeStringForJSON self.name
  let text := "\x7b\n"
  let text := text ++ ("    \"name\": \"" ++ jName ++ "\",\n")
  let text := text ++ "    \"folders\":\n"
  let text := text ++ "    [\n"
  let text := appendObjects Folder.GenerateString self.folders text
  let text := text ++ "    ],\n"
  let text := text ++ "    \"build_systems\":\n"
  let text := text ++ "    [\n"
  let text := appendObjects BuildSystem.GenerateString self.build_systems text
  let text := text ++ "    ]\n"
  let text := text ++ "\x7d\n"
  text

end SublimeTextProject

/-! ## Collaborators of the builder -/

/-- Modelled from the spec: a target descriptor (class `cmTarget`, declared outside these
sources), exposing its name. -/
structure cmTarget where
  Name : String
  deriving DecidableEq, Repr

/-- The accessor `cmTarget::GetName`. -/
def cmTarget.GetName (self : cmTarget) : String := self.Name

/-- Modelled from the spec: the sub-project handle (class `cmMakefile`, declared outside
these sources). It exposes the home directory, the start output directory, the current
directory, the project name, the targets in the order the iteration of `GetTargets`
yields them, the configured make program (the variable `CMAKE_MAKE_PROGRAM`, which may be
absent) and the configured cache-editor command (the variable `CMAKE_EDIT_COMMAND`). -/
structure cmMakefile where
  HomeDirectory : String
  StartOutputDirectory : String
  CurrentDirectory : String
  ProjectName : String
  Targets : List cmTarget
  MakeProgram : Option String
  EditCommand : String
  deriving DecidableEq, Repr

/-- Failures of the builder: the missing required value named by the specification, and
the read of an element a vector does not have. -/
inductive GeneratorError where
  | MissingRequiredValue (name : String)
  | IndexOutOfRange
  deriving DecidableEq, Repr

namespace cmMakefile

/-- The accessor `cmMakefile::GetHomeDirectory`. -/
def GetHomeDirectory (self : cmMakefile) : String := self.HomeDirectory

/-- The accessor `cmMakefile::GetStartOutputDirectory`. -/
def GetStartOutputDirectory (self : cmMakefile) : String := self.StartOutputDirectory

/-- The accessor `cmMakefile::GetCurrentDirectory`. -/
def GetCurrentDirectory (self : cmMakefile) : String := self.CurrentDirectory

/-- The accessor `cmMakefile::GetProjectName`. -/
def GetProjectName (self : cmMakefile) : String := self.ProjectName

/-- The accessor `cmMakefile::GetTargets`, as the sequence its iteration yields. -/
def GetTargets (self : cmMakefile) : List cmTarget := self.Targets

/-- Modelled from the spec: `cmMakefile::GetRequiredDefinition` (defined outside these
sources). The make-invocation program is required: reading it fails with
`MissingRequiredValue` when it is absent. The only variable these sources read through
it is `CMAKE_MAKE_PROGRAM`. -/
def GetRequiredDefinition (self : cmMakefile) (name : String) :
    Except GeneratorError String :=
  match self.MakeProgram with
  | some value => .ok value
  | none => .error (.MissingRequiredValue name)

/-- Modelled from the spec: `cmMakefile::GetDefinition` (defined outside these sources).
The only variable these sources read through it is `CMAKE_EDIT_COMMAND`, the configured
interactive editor command, which the specification treats as already resolved. -/
def GetDefinition (self : cmMakefile) (_name : String) : String := self.EditCommand

end cmMakefile

/-- Modelled from the spec: a sub-project of a grouping (class `cmLocalGenerator`,
declared outside these sources), exposing its makefile. -/
structure cmLocalGenerator where
  Makefile : cmMakefile
  deriving DecidableEq, Repr

/-- The accessor `cmLocalGenerator::GetMakefile`. -/
def cmLocalGenerator.GetMakefile (self : cmLocalGenerator) : cmMakefile := self.Makefile

/-- Modelled from the spec: the write collaborator (class `cmGeneratedFileStream`,
declared outside these sources): the file created at `name` with the text streamed into
it. -/
structure cmGeneratedFileStream where
  name : String
  contents : String
  deriving DecidableEq, Repr

/-! ## Builder (lines 332-436) -/

/-- Method `SublimeTextProject::AddFolder(const cmMakefile*)` (lines 216-233); the
overload is told apart by its name. -/
def SublimeTextProject.AddFolderOfMakefile (self : SublimeTextProject)
    (makeFile : cmMakefile) : SublimeTextProject :=
  let homeDir := makeFile.GetHomeDirectory
  let folder : SublimeTextProject.Folder := {}
  let folder := folder.SetPath homeDir
  let folder := folder.AddFileExcludePattern "CMakeCache.txt"
  let folder := folder.AddFileExcludePattern "cmake_install.cmake"
  let folder := folder.AddFolderExcludePattern "CMakeFiles"
  self.AddFolder folder

/-- Method `cmExtraSublimeTextGenerator::UsingNCursesGUI` (lines 332-338). -/
def UsingNCursesGUI (makeFile : cmMakefile) : Bool :=
  let editCommand := makeFile.GetDefinition "CMAKE_EDIT_COMMAND"
  let foundCCMake := stdFind editCommand "ccmake"
  foundCCMake != none

namespace CreateNewProjectFile

/-- Loop of lines 365-370: add the home directory of every makefile as a folder. -/
def folderLoop : List cmLocalGenerator → SublimeTextProject → SublimeTextProject
  | [], stp => stp
  | lg :: rest, stp =>
    let makeFile := lg.GetMakefile
    folderLoop rest (stp.AddFolderOfMakefile makeFile)

/-- Body of the target loop, lines 408-428: one target of one sub-project. -/
def targetBody (makeFile : cmMakefile) (make makeProjectName : String)
    (stp : SublimeTextProject) (target : cmTarget) : SublimeTextProject :=
  let bs : SublimeTextProject.BuildSystem := {}
  let target_name := target.GetName
  if target_name == "edit_cache" && UsingNCursesGUI makeFile then
    stp
  else
    let bs_name := makeProjectName ++ ": " ++ target_name
    let bs := bs.SetWorkingDirectory makeFile.GetCurrentDirectory
    let bs := bs.SetName bs_name
    let bs := bs.AddToCommand make
    let bs := bs.AddToCommand target.GetName
    stp.AddBuildSystem bs

/-- Loop of lines 373-430: the build systems of every sub-project, in order. -/
def buildSystemLoop (outputDir : String) :
    List cmLocalGenerator → SublimeTextProject → Except GeneratorError SublimeTextProject
  | [], stp => .ok stp
  | lg :: rest, stp =>
    let makeFile := lg.GetMakefile
    match makeFile.GetRequiredDefinition "CMAKE_MAKE_PROGRAM" with
    | .error e => .error e
    | .ok make =>
      let makeProjectName := makeFile.GetProjectName
      let defaultBS : SublimeTextProject.BuildSystem := {}
      let defaultBS := defaultBS.SetName (makeProjectName ++ ": default")
      let defaultBS := defaultBS.SetWorkingDirectory outputDir
      let defaultBS := defaultBS.AddToCommand make
      let stp := stp.AddBuildSystem defaultBS
      let cleanBS : SublimeTextProject.BuildSystem := {}
      let cleanBS := cleanBS.SetName (makeProjectName ++ ": clean")
      let cleanBS := cleanBS.SetWorkingDirectory outputDir
      let cleanBS := cleanBS.AddToCommand make
      let cleanBS := cleanBS.AddToCommand "clean"
      let stp := stp.AddBuildSystem cleanBS
      let dependBS : SublimeTextProject.BuildSystem := {}
      let dependBS := dependBS.SetName (makeProjectName ++ ": depend")
      let dependBS := dependBS.SetWorkingDirectory outputDir
      let dependBS := dependBS.AddToCommand make
      let dependBS := dependBS.AddToCommand "depend"
      let stp := stp.AddBuildSystem dependBS
      let targets := makeFile.GetTargets
      let stp := targets.foldl (targetBody makeFile make makeProjectName) stp
      buildSystemLoop outputDir rest stp

end CreateNewProjectFile

/-- Method `cmExtraSublimeTextGenerator::CreateNewProjectFile` (lines 353-436): the
descriptor at the end of the function together with the file written from it. -/
def CreateNewProjectFile (lgs : List cmLocalGenerator) (projectName outputDir : String) :
    Except GeneratorError (SublimeTextProject × cmGeneratedFileStream) :=
  let stp : SublimeTextProject := {}
  let stp := stp.SetName projectName
  let stp := { stp with filename := outputDir ++ "/" ++ projectName ++ ".sublime-project" }
  let stp := CreateNewProjectFile.folderLoop lgs stp
  match CreateNewProjectFile.buildSystemLoop outputDir lgs stp with
  | .error e => .error e
  | .ok stp =>
    let fout : cmGeneratedFileStream :=
      { name := stp.filename, contents := stp.GenerateProjectText }
    .ok (stp, fout)

/-- Method `cmExtraSublimeTextGenerator::CreateProjectFile` (lines 341-350); reading
`lgs[0]` of an empty vector has no defined result and is reported as an error. -/
def CreateProjectFile (lgs : List cmLocalGenerator) :
    Except GeneratorError (SublimeTextProject × cmGeneratedFileStream) :=
  match lgs with
  | [] => .error .IndexOutOfRange
  | lg0 :: _ =>
    let mf := lg0.GetMakefile
    let outputDir := mf.GetStartOutputDirectory
    let projectName := mf.GetProjectName
    CreateNewProjectFile lgs projectName outputDir

/-! ## Reference reading of JSON text

The generator has no reader of its own output. The definitions of this section state what
a standard JSON reader does with the text: the string-literal grammar of RFC 8259,
section 7, and a scanner of the structural characters that skips string literals. -/

namespace JSON

/-- Value of a hexadecimal digit. -/
def hexDigit (c : Char) : Option Nat :=
  if '0' ≤ c ∧ c ≤ '9' then some (c.toNat - '0'.toNat)
  else if 'a' ≤ c ∧ c ≤ 'f' then some (c.toNat - 'a'.toNat + 10)
  else if 'A' ≤ c ∧ c ≤ 'F' then some (c.toNat - 'A'.toNat + 10)
  else none

/-- Value of four hexadecimal digits. -/
def hex4 (a b c d : Char) : Option Nat :=
  match hexDigit a, hexDigit b, hexDigit c, hexDigit d with
  | some x, some y, some z, some w => some (((x * 16 + y) * 16 + z) * 16 + w)
  | _, _, _, _ => none

/-- The character denoted by a two-character escape sequence. -/
def simpleEscape (e : Char) : Option Char :=
  if e = '"' then some '"'
  else if e = '\\' then some '\\'
  else if e = '/' then some '/'
  else if e = 'b' then some (Char.ofNat 8)
  else if e = 'f' then some (Char.ofNat 12)
  else if e = 'n' then some '\n'
  else if e = 'r' then some '\r'
  else if e = 't' then some '\t'
  else none

/-- Put a decoded character in front of the decoded rest, when there is one. -/
def prepend (c : Char) : Option (List Char) → Option (List Char)
  | some cs => some (c :: cs)
  | none => none

/-- Decode the `u` escape whose four hexadecimal digits gave the code unit `n`, with
`rest` the text after them: a high surrogate has to be followed by an escaped low
surrogate, with which it forms one character; a low surrogate alone is rejected. -/
def unicodeEscape (n : Nat) (rest : List Char) : Option (Char × List Char) :=
  if 0xD800 ≤ n ∧ n < 0xDC00 then
    match rest with
    | b :: u :: l1 :: l2 :: l3 :: l4 :: rest2 =>
      match hex4 l1 l2 l3 l4 with
      | none => none
      | some m =>
        if b = '\\' ∧ u = 'u' ∧ 0xDC00 ≤ m ∧ m < 0xE000 then
          some (Char.ofNat (0x10000 + (n - 0xD800) * 0x400 + (m - 0xDC00)), rest2)
        else none
    | _ => none
  else if 0xDC00 ≤ n ∧ n < 0xE000 then none
  else some (Char.ofNat n, rest)

/-- Decode one escape sequence, given the text after its backslash: the character it
denotes and the text after the sequence. An escape is one of `" \ / b f n r t`, or `u`
and four hexadecimal digits. -/
def escapeSequence : List Char → Option (Char × List Char)
  | [] => none
  | e :: rest =>
    if e = 'u' then
      match rest with
      | h1 :: h2 :: h3 :: h4 :: rest2 =>
        match hex4 h1 h2 h3 h4 with
        | none => none
        | some n => unicodeEscape n rest2
      | _ => none
    else
      match simpleEscape e with
      | some ch => some (ch, rest)
      | none => none

/-- Decode the characters after the opening quote of a string literal, up to the closing
quote, which has to end the text; `fuel` bounds the number of characters and escape
sequences read. Unescaped characters are those from U+0020 on other than the quote and
the backslash; anything else is rejected. -/
def stringBodyFuel : Nat → List Char → Option (List Char)
  | 0, _ => none
  | _ + 1, [] => none
  | fuel + 1, c :: rest =>
    if c = '"' then (if rest = [] then some [] else none)
    else if c = '\\' then
      match escapeSequence rest with
      | some (ch, rest2) => prepend ch (stringBodyFuel fuel rest2)
      | none => none
    else if c.toNat < 0x20 then none
    else prepend c (stringBodyFuel fuel rest)

/-- Decode the characters after the opening quote of a string literal: every step reads
at least one character, so the length of the text is fuel enough. -/
def stringBody (cs : List Char) : Option (List Char) :=
  stringBodyFuel cs.length cs

/-- Read a whole text as one JSON string literal: `some s` when the text is accepted and
denotes `s`, `none` when it is rejected. -/
def parseString (text : String) : Option String :=
  match text.data with
  | '"' :: body => (stringBody body).map String.mk
  | _ => none

/-- State of the scanner of structural characters: whether it is inside a string literal,
whether the previous character of the literal was an escaping backslash, whether the last
token read is a comma, whether some closing bracket came directly after a comma, the
number of arrays open, and for every outermost array (most recent first) the number of
objects opened directly inside it. -/
structure ScanState where
  inString : Bool := false
  escaped : Bool := false
  lastComma : Bool := false
  trailingComma : Bool := false
  depth : Nat := 0
  objects : List Nat := []
  deriving DecidableEq, Repr

/-- Count one more object in the most recent outermost array. -/
def bump : List Nat → List Nat
  | [] => []
  | n :: rest => (n + 1) :: rest

/-- One character of the scan. Inside a string literal a backslash escapes the next
character and an unescaped quote closes the literal. Outside, white space is skipped and
every other character is a token. -/
def scanStep (st : ScanState) (c : Char) : ScanState :=
  if st.inString then
    if st.escaped then { st with escaped := false }
    else if c = '\\' then { st with escaped := true }
    else if c = '"' then { st with inString := false }
    else st
  else if c = '"' then { st with inString := true, lastComma := false }
  else if c = ' ' ∨ c = '\n' ∨ c = '\t' ∨ c = '\r' then st
  else if c = ',' then { st with lastComma := true }
  else if c = ']' then
    { st with
      lastComma := false
      trailingComma := st.trailingComma || st.lastComma
      depth := st.depth - 1 }
  else if c = '[' then
    { st with
      lastComma := false
      depth := st.depth + 1
      objects := if st.depth = 0 then 0 :: st.objects else st.objects }
  else if c = '{' then
    { st with
      lastComma := false
      objects := if st.depth = 1 then bump st.objects else st.objects }
  else { st with lastComma := false }

/-- Scan a run of characters from a state. -/
def scan (st : ScanState) (cs : List Char) : ScanState :=
  cs.foldl scanStep st

/-- Whether the text has an array whose closing bracket comes directly after a comma. -/
def hasTrailingComma (text : String) : Bool :=
  (scan {} text.data).trailingComma

/-- For every outermost array of the text, in order, the number of objects directly
inside it. -/
def objectCounts (text : String) : List Nat :=
  (scan {} text.data).objects.reverse

end JSON

/-! ## The specification's account of the builder -/

namespace Spec

/-- A target is skipped when it is the reserved cache-editor target and the editor lookup
reports a console tool. -/
def skipped (mf : cmMakefile) (t : cmTarget) : Bool :=
  t.Name == "edit_cache" && UsingNCursesGUI mf

/-- The visible targets of a sub-project, in the order of its target list: all targets
but the skipped ones. -/
def visibleTargets (mf : cmMakefile) : List cmTarget :=
  mf.Targets.filter (fun t => !skipped mf t)

/-- The default triad of a sub-project named `P` with make program `M`, run in the
directory `D`. -/
def defaultCommands (D P M : String) : List SublimeTextProject.BuildSystem :=
  [ { name := P ++ ": default", working_dir := D, cmd := [M], shell := false },
    { name := P ++ ": clean", working_dir := D, cmd := [M, "clean"], shell := false },
    { name := P ++ ": depend", working_dir := D, cmd := [M, "depend"], shell := false } ]

/-- The build command of the target named `T` of a sub-project named `P` with make
program `M` and current directory `C`. -/
def targetCommand (P M C T : String) : SublimeTextProject.BuildSystem :=
  { name := P ++ ": " ++ T, working_dir := C, cmd := [M, T], shell := false }

/-- The build commands of one sub-project with make program `M`: the default triad, run
in the top-level output directory `D`, then one command per visible target. -/
def subProjectCommands (D : String) (mf : cmMakefile) (M : String) :
    List SublimeTextProject.BuildSystem :=
  defaultCommands D mf.ProjectName M
    ++ (visibleTargets mf).map
        (fun t => targetCommand mf.ProjectName M mf.CurrentDirectory t.Name)

/-- The build commands of a grouping: those of its sub-projects, in the supplied order. A
sub-project without make program has none. -/
def groupingCommands (D : String) (lgs : List cmLocalGenerator) :
    List SublimeTextProject.BuildSystem :=
  lgs.flatMap (fun lg =>
    match lg.Makefile.MakeProgram with
    | some M => subProjectCommands D lg.Makefile M
    | none => [])

/-- The folder entry of a sub-project. -/
def folderEntry (mf : cmMakefile) : SublimeTextProject.Folder :=
  { path := mf.HomeDirectory
    folder_exclude_patterns := ["CMakeFiles"]
    file_exclude_patterns := ["CMakeCache.txt", "cmake_install.cmake"] }

/-- The descriptor of a grouping. -/
def descriptor (lgs : List cmLocalGenerator) (projectName outputDir : String) :
    SublimeTextProject :=
  { filename := outputDir ++ "/" ++ projectName ++ ".sublime-project"
    name := projectName
    folders := lgs.map (fun lg => folderEntry lg.Makefile)
    build_systems := groupingCommands outputDir lgs }

end Spec

/-! ## Concrete groupings -/

namespace Example

/-- The sub-project of the scenario: project Foo, sources in /src, built in /build. -/
def fooMakefile : cmMakefile :=
  { HomeDirectory := "/src"
    StartOutputDirectory := "/build"
    CurrentDirectory := "/build"
    ProjectName := "Foo"
    Targets := [⟨"all"⟩, ⟨"install"⟩]
    MakeProgram := some "/usr/bin/make"
    EditCommand := "/usr/bin/cmake-gui" }

/-- A nested sub-project whose cache editor is the console tool. -/
def barMakefile : cmMakefile :=
  { HomeDirectory := "/src/bar"
    StartOutputDirectory := "/build/bar"
    CurrentDirectory := "/build/bar"
    ProjectName := "Bar"
    Targets := [⟨"bar"⟩, ⟨"edit_cache"⟩, ⟨"test"⟩]
    MakeProgram := some "/usr/bin/gmake"
    EditCommand := "/usr/bin/ccmake" }

/-- A grouping of two sub-projects. -/
def grouping : List cmLocalGenerator := [⟨fooMakefile⟩, ⟨barMakefile⟩]

/-- The name of the escaping scenario: the twelve characters `say "hi"\now`. -/
def quotedName : String := "say \"hi\"\\now"

end Example

/-! ## Further reference definitions -/

namespace JSON

/-- Read an escaped string-literal body from left to right. A backslash consumes the
character after it, which is kept; any other character is kept as it is. The reading
fails on a double quote that no backslash consumed and on a backslash at the very end.
The flag tells whether the previous character was a consuming backslash. -/
def unescapeFrom : Bool → List Char → Option (List Char)
  | false, [] => some []
  | true, [] => none
  | true, c :: rest => prepend c (unescapeFrom false rest)
  | false, c :: rest =>
    if c = '\\' then unescapeFrom true rest
    else if c = '"' then none
    else prepend c (unescapeFrom false rest)

/-- Read an escaped string-literal body: `some s` when it is well formed and stands for
`s`, `none` when it has an unescaped double quote or a dangling backslash. -/
def unescape (body : String) : Option String :=
  (unescapeFrom false body.data).map String.mk

end JSON

/-- An operation of the descriptor model (lines 211-244). -/
inductive DescriptorOp where
  | SetName (projectName : String)
  | AddFolder (folder : SublimeTextProject.Folder)
  | AddBuildSystem (bs : SublimeTextProject.BuildSystem)
  deriving DecidableEq, Repr

/-- Apply one operation of the descriptor model. -/
def DescriptorOp.apply (stp : SublimeTextProject) : DescriptorOp → SublimeTextProject
  | .SetName projectName => stp.SetName projectName
  | .AddFolder folder => stp.AddFolder folder
  | .AddBuildSystem bs => stp.AddBuildSystem bs

/-- Apply a sequence of operations of the descriptor model, first to last. -/
def DescriptorOp.run (stp : SublimeTextProject) (ops : List DescriptorOp) :
    SublimeTextProject :=
  ops.foldl DescriptorOp.apply stp

namespace Example

/-- A sub-project without targets. -/
def bareMakefile : cmMakefile :=
  { HomeDirectory := "/src"
    StartOutputDirectory := "/out"
    CurrentDirectory := "/out"
    ProjectName := "Bare"
    Targets := []
    MakeProgram := some "make"
    EditCommand := "cmake-gui" }

/-- A sub-project without configured make program. -/
def brokenMakefile : cmMakefile :=
  { HomeDirectory := "/src/broken"
    StartOutputDirectory := "/out/broken"
    CurrentDirectory := "/out/broken"
    ProjectName := "Broken"
    Targets := [⟨"all"⟩]
    MakeProgram := none
    EditCommand := "cmake-gui" }

end Example

namespace JSON

/-- State of the reader of object keys: whether it is inside a string literal, whether
the previous character of the literal was an escaping backslash, the body of the literal
being read, the body of the last token when that token is a string literal, and the keys
found so far. -/
structure KeyState where
  inString : Bool := false
  escaped : Bool := false
  current : List Char := []
  last : Option (List Char) := none
  keys : List String := []
  deriving DecidableEq, Repr

/-- One character of the reading of keys. A string literal directly followed by a colon,
white space apart, is a key; its body is recorded as written. -/
def keyStep (st : KeyState) (c : Char) : KeyState :=
  if st.inString then
    if st.escaped then { st with escaped := false, current := st.current ++ [c] }
    else if c = '\\' then { st with escaped := true, current := st.current ++ [c] }
    else if c = '"' then { st with inString := false, current := [], last := some st.current }
    else { st with current := st.current ++ [c] }
  else if c = '"' then { st with inString := true, current := [], last := none }
  else if c = ' ' ∨ c = '\n' ∨ c = '\t' ∨ c = '\r' then st
  else if c = ':' then
    match st.last with
    | some key => { st with last := none, keys := st.keys ++ [String.mk key] }
    | none => st
  else { st with last := none }

/-- Read a run of characters from a state. -/
def keyScan (st : KeyState) (cs : List Char) : KeyState :=
  cs.foldl keyStep st

/-- The keys of the objects of a text, in the order they are written. -/
def keys (text : String) : List String :=
  (keyScan {} text.data).keys

end JSON

/-! ## Loops as list recursions -/

/-- The characters `escapeStringForJSON` writes for one character. -/
def escapeChar (c : Char) : List Char :=
  if c = '\\' ∨ c = '"' then ['\\', c] else [c]

theorem foldl_range_succ_shift {β : Type} (g : β → Nat → β) (acc : β) (n : Nat) :
    (List.range (n + 1)).foldl g acc
      = (List.range n).foldl (fun a i => g a (i + 1)) (g acc 0) := by
  rw [List.range_succ_eq_map, List.foldl_cons, List.foldl_map]

theorem escape_loop_eq (l : List Char) (acc : String) :
    (List.range l.length).foldl
      (fun outStr i =>
        let c := l.getD i default
        let outStr := if c = '\\' ∨ c = '"' then outStr.push '\\' else outStr
        outStr.push c)
      acc = ⟨acc.data ++ l.flatMap escapeChar⟩ := by
  induction l generalizing acc with
  | nil => simp
  | cons x xs ih =>
    rw [List.length_cons, foldl_range_succ_shift]
    simp only [List.getD_cons_succ, List.getD_cons_zero]
    rw [ih]
    by_cases hx : x = '\\' ∨ x = '"'
    · simp [escapeChar, hx, String.push, List.flatMap_cons]
    · simp [escapeChar, hx, String.push, List.flatMap_cons]

theorem escapeStringForJSON_data (s : String) :
    (escapeStringForJSON s).data = s.data.flatMap escapeChar := by
  unfold escapeStringForJSON
  rw [String.length, escape_loop_eq]
  simp


open JSON

theorem scan_nil (st : ScanState) : scan st [] = st := rfl

theorem scan_cons (st : ScanState) (c : Char) (cs : List Char) :
    scan st (c :: cs) = scan (scanStep st c) cs := rfl

theorem scan_append (st : ScanState) (a b : List Char) :
    scan st (a ++ b) = scan (scan st a) b := by
  simp [scan, List.foldl_append]

theorem scan_escaped_data (l : List Char) (lc tc : Bool) (d : Nat) (o : List Nat) :
    scan ⟨true, false, lc, tc, d, o⟩ (l.flatMap escapeChar) = ⟨true, false, lc, tc, d, o⟩ := by
  induction l with
  | nil => rfl
  | cons c cs ih =>
    rw [List.flatMap_cons, scan_append]
    by_cases h1 : c = '\\'
    · subst h1
      simpa [escapeChar, scan_cons, scan_nil, scanStep] using ih
    · by_cases h2 : c = '"'
      · subst h2
        simpa [escapeChar, scan_cons, scan_nil, scanStep] using ih
      · simpa [escapeChar, scan_cons, scan_nil, scanStep, h1, h2] using ih

theorem scan_escapeStringForJSON (s : String) (lc tc : Bool) (d : Nat) (o : List Nat) :
    scan ⟨true, false, lc, tc, d, o⟩ (escapeStringForJSON s).data
      = ⟨true, false, lc, tc, d, o⟩ := by
  rw [escapeStringForJSON_data, scan_escaped_data]


open SublimeTextProject

theorem appendQuotedElements_nil (acc : String) : appendQuotedElements [] acc = acc := rfl

theorem appendQuotedElements_cons (x : String) (xs : List String) (acc : String) :
    appendQuotedElements (x :: xs) acc
      = appendQuotedElements xs
          (if xs.isEmpty then acc ++ ("\"" ++ escapeStringForJSON x ++ "\"")
            else acc ++ ("\"" ++ escapeStringForJSON x ++ "\"") ++ ", ") := by
  unfold appendQuotedElements
  rw [List.length_cons, foldl_range_succ_shift]
  simp only [List.getD_cons_succ, List.getD_cons_zero, List.length_cons,
    Nat.add_lt_add_iff_right]
  congr 1
  cases xs <;> simp

theorem appendObjects_nil {α : Type} [Inhabited α] (render : α → String) (text : String) :
    appendObjects render [] text = text := rfl

theorem appendObjects_cons {α : Type} [Inhabited α] (render : α → String) (x : α)
    (xs : List α) (text : String) :
    appendObjects render (x :: xs) text
      = appendObjects render xs
          (if xs.isEmpty then text ++ render x ++ "\n" else text ++ render x ++ "," ++ "\n") := by
  unfold appendObjects
  rw [List.length_cons, foldl_range_succ_shift]
  simp only [List.getD_cons_succ, List.getD_cons_zero, List.length_cons, ne_eq,
    Nat.add_right_cancel_iff]
  congr 1
  cases xs <;> simp


theorem scan_appendQuotedElements (v : List String) (acc : String) (st : ScanState)
    (lc tc : Bool) (d : Nat) (o : List Nat)
    (hacc : scan st acc.data = ⟨false, false, lc, tc, d, o⟩) (hlc : v = [] → lc = false) :
    scan st (appendQuotedElements v acc).data = ⟨false, false, false, tc, d, o⟩ := by
  induction v generalizing acc lc with
  | nil => simp [appendQuotedElements_nil, hacc, hlc]
  | cons x xs ih =>
    rw [appendQuotedElements_cons]
    cases xs with
    | nil =>
      apply ih _ false
      · simp [scan_append, hacc, scan_cons, scan_nil, scanStep, scan_escapeStringForJSON]
      · intro _; rfl
    | cons y ys =>
      apply ih _ true
      · simp [scan_append, hacc, scan_cons, scan_nil, scanStep, scan_escapeStringForJSON]
      · intro h; cases h


theorem scan_BuildSystem_GenerateString (bs : BuildSystem) (lc tc : Bool) (o : List Nat) :
    scan ⟨false, false, lc, tc, 1, o⟩ bs.GenerateString.data
      = ⟨false, false, false, tc, 1, bump o⟩ := by
  unfold BuildSystem.GenerateString
  simp only [String.data_append, scan_append]
  rw [scan_appendQuotedElements bs.cmd _ _ false tc 2 (bump o) ?_ (fun _ => rfl)]
  · simp [scan_cons, scan_nil, scanStep]
  · cases bs.shell <;>
      simp [scan_append, scan_cons, scan_nil, scanStep, scan_escapeStringForJSON]

theorem scan_Folder_GenerateString (f : Folder) (lc tc : Bool) (o : List Nat) :
    scan ⟨false, false, lc, tc, 1, o⟩ f.GenerateString.data
      = ⟨false, false, false, tc, 1, bump o⟩ := by
  unfold Folder.GenerateString
  simp only [String.data_append, scan_append]
  rw [scan_appendQuotedElements f.file_exclude_patterns _ _ false tc 2 (bump o) ?_
    (fun _ => rfl)]
  · simp [scan_cons, scan_nil, scanStep]
  · simp only [String.data_append, scan_append]
    rw [scan_appendQuotedElements f.folder_exclude_patterns _ _ false tc 2 (bump o) ?_
        (fun _ => rfl)]
    · simp [scan_cons, scan_nil, scanStep]
    · simp [scan_append, scan_cons, scan_nil, scanStep, scan_escapeStringForJSON]

theorem scan_appendObjects {α : Type} [Inhabited α] (render : α → String)
    (hrender : ∀ (x : α) (lc tc : Bool) (o : List Nat),
      scan ⟨false, false, lc, tc, 1, o⟩ (render x).data
        = ⟨false, false, false, tc, 1, bump o⟩)
    (v : List α) (text : String) (st : ScanState) (lc tc : Bool) (n : Nat) (o : List Nat)
    (htext : scan st text.data = ⟨false, false, lc, tc, 1, n :: o⟩)
    (hlc : v = [] → lc = false) :
    scan st (appendObjects render v text).data
      = ⟨false, false, false, tc, 1, (n + v.length) :: o⟩ := by
  induction v generalizing text lc n with
  | nil => simp [appendObjects_nil, htext, hlc]
  | cons x xs ih =>
    rw [appendObjects_cons]
    cases xs with
    | nil =>
      rw [ih _ false (n + 1)]
      · simp [Nat.add_comm]
      · simp [scan_append, htext, hrender, bump, scan_cons, scan_nil, scanStep]
      · intro _; rfl
    | cons y ys =>
      rw [ih _ true (n + 1)]
      · simp only [List.length_cons]; congr 2; omega
      · simp [scan_append, htext, hrender, bump, scan_cons, scan_nil, scanStep]
      · intro h; cases h

theorem scan_GenerateProjectText (stp : SublimeTextProject) :
    scan {} stp.GenerateProjectText.data
      = ⟨false, false, false, false, 0, [stp.build_systems.length, stp.folders.length]⟩ := by
  unfold GenerateProjectText
  simp only [String.data_append, scan_append]
  rw [scan_appendObjects BuildSystem.GenerateString scan_BuildSystem_GenerateString
    stp.build_systems _ _ false false 0 [stp.folders.length] ?_ (fun _ => rfl)]
  · simp [scan_cons, scan_nil, scanStep]
  · simp only [String.data_append, scan_append]
    rw [scan_appendObjects Folder.GenerateString scan_Folder_GenerateString
        stp.folders _ _ false false 0 [] ?_ (fun _ => rfl)]
    · simp [scan_cons, scan_nil, scanStep]
    · simp [scan_append, scan_cons, scan_nil, scanStep, scan_escapeStringForJSON]


/-! ## The builder as list operations -/

theorem folderLoop_eq (lgs : List cmLocalGenerator) (stp : SublimeTextProject) :
    CreateNewProjectFile.folderLoop lgs stp
      = { stp with folders := stp.folders ++ lgs.map (fun lg => Spec.folderEntry lg.Makefile) } := by
  induction lgs generalizing stp with
  | nil => simp [CreateNewProjectFile.folderLoop]
  | cons lg rest ih =>
    rw [CreateNewProjectFile.folderLoop, ih]
    simp [AddFolderOfMakefile, AddFolder, Folder.SetPath, Folder.AddFileExcludePattern,
      Folder.AddFolderExcludePattern, Spec.folderEntry, cmLocalGenerator.GetMakefile,
      cmMakefile.GetHomeDirectory]

theorem targetBody_eq (mf : cmMakefile) (make P : String) (stp : SublimeTextProject)
    (t : cmTarget) :
    CreateNewProjectFile.targetBody mf make P stp t
      = if Spec.skipped mf t = true then stp
        else stp.AddBuildSystem (Spec.targetCommand P make mf.CurrentDirectory t.Name) := by
  rfl

theorem targetLoop_eq (mf : cmMakefile) (make P : String) (ts : List cmTarget)
    (stp : SublimeTextProject) :
    ts.foldl (CreateNewProjectFile.targetBody mf make P) stp
      = { stp with
          build_systems := stp.build_systems
            ++ (ts.filter (fun t => !Spec.skipped mf t)).map
                (fun t => Spec.targetCommand P make mf.CurrentDirectory t.Name) } := by
  induction ts generalizing stp with
  | nil => simp
  | cons t rest ih =>
    rw [List.foldl_cons, ih, targetBody_eq]
    by_cases h : Spec.skipped mf t = true
    · simp [h]
    · simp [h, AddBuildSystem]

theorem buildSystemLoop_eq (outputDir : String) (lgs : List cmLocalGenerator)
    (stp : SublimeTextProject) (hmake : ∀ lg ∈ lgs, lg.Makefile.MakeProgram ≠ none) :
    CreateNewProjectFile.buildSystemLoop outputDir lgs stp
      = .ok { stp with
          build_systems := stp.build_systems ++ Spec.groupingCommands outputDir lgs } := by
  induction lgs generalizing stp with
  | nil => simp [CreateNewProjectFile.buildSystemLoop, Spec.groupingCommands]
  | cons lg rest ih =>
    have hrest : ∀ l ∈ rest, l.Makefile.MakeProgram ≠ none :=
      fun l hl => hmake l (List.mem_cons_of_mem _ hl)
    have hlg := hmake lg (List.mem_cons_self _ _)
    obtain ⟨M, hM⟩ := Option.ne_none_iff_exists'.mp hlg
    simp only [CreateNewProjectFile.buildSystemLoop, cmLocalGenerator.GetMakefile,
      cmMakefile.GetRequiredDefinition, hM, targetLoop_eq, cmMakefile.GetTargets,
      cmMakefile.GetProjectName]
    rw [ih _ hrest]
    simp [Spec.groupingCommands, hM, Spec.subProjectCommands, Spec.defaultCommands,
      Spec.visibleTargets, AddBuildSystem, BuildSystem.SetWorkingDirectory,
      BuildSystem.SetName, BuildSystem.AddToCommand]

theorem CreateNewProjectFile_eq (lgs : List cmLocalGenerator) (projectName outputDir : String)
    (hmake : ∀ lg ∈ lgs, lg.Makefile.MakeProgram ≠ none) :
    CreateNewProjectFile lgs projectName outputDir
      = .ok (Spec.descriptor lgs projectName outputDir,
          { name := outputDir ++ "/" ++ projectName ++ ".sublime-project"
            contents := (Spec.descriptor lgs projectName outputDir).GenerateProjectText }) := by
  unfold CreateNewProjectFile
  simp only [folderLoop_eq]
  rw [buildSystemLoop_eq _ _ _ hmake]
  simp [Spec.descriptor, SetName]


theorem groupingCommands_split (D : String) (pre post : List cmLocalGenerator)
    (lg : cmLocalGenerator) (M : String) (hM : lg.Makefile.MakeProgram = some M) :
    Spec.groupingCommands D (pre ++ lg :: post)
      = Spec.groupingCommands D pre ++ Spec.subProjectCommands D lg.Makefile M
        ++ Spec.groupingCommands D post := by
  simp [Spec.groupingCommands, hM]

theorem groupingCommands_cons (D : String) (rest : List cmLocalGenerator)
    (lg : cmLocalGenerator) (M : String) (hM : lg.Makefile.MakeProgram = some M) :
    Spec.groupingCommands D (lg :: rest)
      = Spec.subProjectCommands D lg.Makefile M ++ Spec.groupingCommands D rest := by
  simp [Spec.groupingCommands, hM]

theorem subProjectCommands_length (D : String) (mf : cmMakefile) (M : String) :
    (Spec.subProjectCommands D mf M).length = 3 + (Spec.visibleTargets mf).length := by
  simp [Spec.subProjectCommands, Spec.defaultCommands]
  omega

theorem groupingCommands_length (D : String) (lgs : List cmLocalGenerator)
    (hmake : ∀ lg ∈ lgs, lg.Makefile.MakeProgram ≠ none) :
    (Spec.groupingCommands D lgs).length
      = 3 * lgs.length
        + (lgs.map (fun lg => (Spec.visibleTargets lg.Makefile).length)).sum := by
  induction lgs with
  | nil => simp [Spec.groupingCommands]
  | cons lg rest ih =>
    have hrest : ∀ l ∈ rest, l.Makefile.MakeProgram ≠ none :=
      fun l hl => hmake l (List.mem_cons_of_mem _ hl)
    obtain ⟨M, hM⟩ := Option.ne_none_iff_exists'.mp (hmake lg (List.mem_cons_self _ _))
    rw [groupingCommands_cons D rest lg M hM, List.length_append, ih hrest,
      subProjectCommands_length, List.map_cons, List.sum_cons, List.length_cons]
    omega


/-! ## Escaping -/

theorem flatMap_escapeChar_plain (l : List Char) (h : ∀ c ∈ l, c ≠ '\\' ∧ c ≠ '"') :
    l.flatMap escapeChar = l := by
  induction l with
  | nil => rfl
  | cons c cs ih =>
    have hc := h c (List.mem_cons_self _ _)
    have hcs : ∀ x ∈ cs, x ≠ '\\' ∧ x ≠ '"' := fun x hx => h x (List.mem_cons_of_mem _ hx)
    simp [List.flatMap_cons, escapeChar, hc.1, hc.2, ih hcs]

theorem flatMap_escapeChar_length (l : List Char) :
    (l.flatMap escapeChar).length = l.length + l.countP (fun c => c = '\\' ∨ c = '"') := by
  induction l with
  | nil => rfl
  | cons c cs ih =>
    rw [List.flatMap_cons, List.length_append, ih, List.countP_cons, List.length_cons]
    by_cases hc : c = '\\' ∨ c = '"'
    · simp [escapeChar, hc]; omega
    · simp [escapeChar, hc]; omega

theorem stringBodyFuel_escaped (l : List Char) (hctl : ∀ c ∈ l, 0x20 ≤ c.toNat)
    (fuel : Nat) (hfuel : (l.flatMap escapeChar ++ ['"']).length ≤ fuel) :
    JSON.stringBodyFuel fuel (l.flatMap escapeChar ++ ['"']) = some l := by
  induction l generalizing fuel with
  | nil =>
    cases fuel with
    | zero => simp at hfuel
    | succ k => simp [JSON.stringBodyFuel]
  | cons c cs ih =>
    have hc := hctl c (List.mem_cons_self _ _)
    have hcs : ∀ x ∈ cs, 0x20 ≤ x.toNat := fun x hx => hctl x (List.mem_cons_of_mem _ hx)
    rw [List.flatMap_cons] at hfuel ⊢
    by_cases h1 : c = '\\'
    · subst h1
      simp only [escapeChar, true_or, if_true, List.cons_append, List.nil_append,
        List.length_cons] at hfuel ⊢
      obtain ⟨k, rfl⟩ : ∃ k, fuel = k + 1 := ⟨fuel - 1, by omega⟩
      simp [JSON.stringBodyFuel, JSON.escapeSequence, JSON.simpleEscape,
        ih hcs k (by omega), JSON.prepend]
    · by_cases h2 : c = '"'
      · subst h2
        simp only [escapeChar, or_true, if_true, List.cons_append, List.nil_append,
          List.length_cons] at hfuel ⊢
        obtain ⟨k, rfl⟩ : ∃ k, fuel = k + 1 := ⟨fuel - 1, by omega⟩
        simp [JSON.stringBodyFuel, JSON.escapeSequence, JSON.simpleEscape,
          ih hcs k (by omega), JSON.prepend]
      · have h3 : ¬ c.toNat < 32 := by omega
        simp only [escapeChar, h1, h2, or_self, if_false, List.cons_append,
          List.nil_append, List.length_cons] at hfuel ⊢
        obtain ⟨k, rfl⟩ : ∃ k, fuel = k + 1 := ⟨fuel - 1, by omega⟩
        simp [JSON.stringBodyFuel, h1, h2, h3, ih hcs k (by omega), JSON.prepend]

theorem stringBody_escaped (l : List Char) (hctl : ∀ c ∈ l, 0x20 ≤ c.toNat) :
    JSON.stringBody (l.flatMap escapeChar ++ ['"']) = some l :=
  stringBodyFuel_escaped l hctl _ (Nat.le_refl _)

/-- C8: `escapeStringForJSON s` is the concatenation, over the characters `c` of `s` in
order, of backslash then `c` when `c` is a backslash or a double quote and of `c` alone
otherwise; a string without backslash and double quote is returned unchanged; the output
length is the length of `s` plus the number of backslashes and double quotes in `s`. -/
theorem escapeStringForJSON_characterisation (s : String) :
    escapeStringForJSON s
        = String.mk (s.data.flatMap (fun c => if c = '\\' ∨ c = '"' then ['\\', c] else [c]))
      ∧ ((∀ c ∈ s.data, c ≠ '\\' ∧ c ≠ '"') → escapeStringForJSON s = s)
      ∧ (escapeStringForJSON s).length
          = s.length + s.data.countP (fun c => c = '\\' ∨ c = '"') := by
  refine ⟨?_, ?_, ?_⟩
  · apply String.ext
    rw [escapeStringForJSON_data]
    rfl
  · intro h
    apply String.ext
    rw [escapeStringForJSON_data, flatMap_escapeChar_plain _ h]
  · rw [String.length, escapeStringForJSON_data, flatMap_escapeChar_length, String.length]

/-- C1, as amended: for every string `s` that contains a backslash or a double quote and
no control character (no character below U+0020), the text made of a double quote,
`escapeStringForJSON s` and a double quote is accepted by the JSON string-literal reader
and decodes to exactly `s`. -/
theorem escapeStringForJSON_reparses (s : String)
    (_hs : '\\' ∈ s.data ∨ '"' ∈ s.data) (hctl : ∀ c ∈ s.data, 0x20 ≤ c.toNat) :
    JSON.parseString ("\"" ++ escapeStringForJSON s ++ "\"") = some s := by
  have hdata : ("\"" ++ escapeStringForJSON s ++ "\"").data
      = '"' :: (s.data.flatMap escapeChar ++ ['"']) := by
    simp [String.data_append, escapeStringForJSON_data]
  unfold JSON.parseString
  rw [hdata]
  simp [stringBody_escaped _ hctl]

/-- Witness of C1 as amended, at the name `say "hi"\now`. -/
theorem escapeStringForJSON_reparses_witness :
    ('\\' ∈ Example.quotedName.data ∨ '"' ∈ Example.quotedName.data)
      ∧ (∀ c ∈ Example.quotedName.data, 0x20 ≤ c.toNat)
      ∧ JSON.parseString ("\"" ++ escapeStringForJSON Example.quotedName ++ "\"")
          = some Example.quotedName :=
  ⟨by decide, by decide,
    escapeStringForJSON_reparses Example.quotedName (by decide) (by decide)⟩

/-- Counterexample to C1 as stated: the string made of a double quote and a line feed
contains a double quote, and the quoted escaped text is rejected by the JSON
string-literal reader, because the line feed is passed through raw. -/
theorem escapeStringForJSON_control_character_rejected :
    '"' ∈ "\"\n".data
      ∧ escapeStringForJSON "\"\n" = "\\\"\n"
      ∧ JSON.parseString ("\"" ++ escapeStringForJSON "\"\n" ++ "\"") = none := by
  decide

/-- The reference reader on sample texts: escapes are decoded, an unescaped quote inside
the text, a dangling backslash and a raw control character are rejected. -/
theorem sample_parseString :
    JSON.parseString "\"a\\\"b\\\\c\"" = some "a\"b\\c"
      ∧ JSON.parseString "\"a\\u0041\\n\"" = some "aA\n"
      ∧ JSON.parseString "\"ab\"c\"" = none
      ∧ JSON.parseString "\"ab\\\"" = none
      ∧ JSON.parseString "\"a\tb\"" = none := by
  decide

/-! ## Rendering -/

theorem appendObjects_eq_append {α : Type} [Inhabited α] (render : α → String) (v : List α)
    (text : String) :
    appendObjects render v text = text ++ appendObjects render v "" := by
  induction v generalizing text with
  | nil => simp [appendObjects_nil]
  | cons x xs ih =>
    rw [appendObjects_cons, appendObjects_cons, ih, ih (if xs.isEmpty then _ else _)]
    cases xs <;> simp [String.append_assoc]

theorem appendQuotedElements_eq_append (v : List String) (acc : String) :
    appendQuotedElements v acc = acc ++ appendQuotedElements v "" := by
  induction v generalizing acc with
  | nil => simp [appendQuotedElements_nil]
  | cons x xs ih =>
    rw [appendQuotedElements_cons, appendQuotedElements_cons, ih,
      ih (if xs.isEmpty then _ else _)]
    cases xs <;> simp [String.append_assoc]

/-- C7: for a project and for a build command whose name is the twelve characters
`say "hi"\now`, the rendering starts with the `"name"` field whose value, between its
enclosing quotes, is exactly `say \"hi\"\\now`: one backslash is put before each quote and
before the backslash, and the `n` after the backslash stays the letter `n`: the value
holds no line feed, and read back as a JSON string literal it is the name again. -/
theorem name_field_of_quoted_name :
    escapeStringForJSON "say \"hi\"\\now" = "say \\\"hi\\\"\\\\now"
      ∧ '\n' ∉ (escapeStringForJSON "say \"hi\"\\now").data
      ∧ JSON.parseString ("\"" ++ "say \\\"hi\\\"\\\\now" ++ "\"") = some "say \"hi\"\\now"
      ∧ (∀ (filename : String) (folders : List Folder) (build_systems : List BuildSystem),
          ∃ rest, GenerateProjectText
              { filename := filename, name := "say \"hi\"\\now", folders := folders,
                build_systems := build_systems }
            = "\x7b\n    \"name\": \"" ++ "say \\\"hi\\\"\\\\now" ++ "\",\n" ++ rest)
      ∧ (∀ (working_dir : String) (cmd : List String) (shell : Bool),
          ∃ rest, BuildSystem.GenerateString
              { name := "say \"hi\"\\now", working_dir := working_dir, cmd := cmd,
                shell := shell }
            = "        \x7b\n            \"name\": \"" ++ "say \\\"hi\\\"\\\\now" ++ "\",\n"
                ++ rest) := by
  have hesc : escapeStringForJSON "say \"hi\"\\now" = "say \\\"hi\\\"\\\\now" := by decide
  refine ⟨hesc, by decide, by decide, ?_, ?_⟩
  · intro filename folders build_systems
    unfold GenerateProjectText
    simp only [hesc]
    rw [appendObjects_eq_append BuildSystem.GenerateString, appendObjects_eq_append Folder.GenerateString]
    simp only [String.append_assoc]
    exact ⟨_, rfl⟩
  · intro working_dir cmd shell
    unfold BuildSystem.GenerateString
    simp only [hesc]
    rw [appendQuotedElements_eq_append]
    cases shell
    · simp only [String.append_assoc, String.empty_append]
      exact ⟨_, rfl⟩
    · simp only [String.append_assoc, String.empty_append]
      exact ⟨_, rfl⟩

/-- C4: for every descriptor, the text returned by `GenerateProjectText` has no array in
which a comma is the last token before the closing bracket, whatever the number of
folders, build commands, command parts and exclude patterns. -/
theorem GenerateProjectText_no_trailing_comma (stp : SublimeTextProject) :
    JSON.hasTrailingComma stp.GenerateProjectText = false := by
  unfold JSON.hasTrailingComma
  rw [scan_GenerateProjectText]

/-- The scanner does report a comma directly before a closing bracket, and is not misled
by brackets and commas inside string literals. -/
theorem sample_hasTrailingComma :
    JSON.hasTrailingComma "[ \"a\", ]" = true
      ∧ JSON.hasTrailingComma "[ \"a\",\n    ]" = true
      ∧ JSON.hasTrailingComma "[ \"a,]\" ]" = false
      ∧ JSON.hasTrailingComma "[ \"a\\\",]\" ]" = false
      ∧ JSON.hasTrailingComma "[  ]" = false := by
  decide


/-! ## The builder -/

/-- C2: for every grouping of `S` sub-projects that all have a make program, the
descriptor built by `CreateNewProjectFile` has exactly `3 * S + Σ visibleTargets_i` build
commands, where the visible targets of a sub-project are its targets other than those
named `edit_cache` when the console-editor lookup is true for it; and the text of
`GenerateProjectText`, which is the text written, has exactly that many objects in its
second array, `build_systems`. -/
theorem build_command_count (lgs : List cmLocalGenerator) (projectName outputDir : String)
    (hmake : ∀ lg ∈ lgs, lg.Makefile.MakeProgram ≠ none) :
    ∃ stp fout, CreateNewProjectFile lgs projectName outputDir = .ok (stp, fout)
      ∧ stp.build_systems.length
          = 3 * lgs.length
            + (lgs.map (fun lg =>
                (lg.Makefile.Targets.filter
                  (fun t => !(t.Name == "edit_cache" && UsingNCursesGUI lg.Makefile))).length)).sum
      ∧ fout.contents = stp.GenerateProjectText
      ∧ JSON.objectCounts stp.GenerateProjectText
          = [lgs.length,
              3 * lgs.length
                + (lgs.map (fun lg =>
                    (lg.Makefile.Targets.filter
                      (fun t =>
                        !(t.Name == "edit_cache" && UsingNCursesGUI lg.Makefile))).length)).sum] := by
  refine ⟨_, _, CreateNewProjectFile_eq lgs projectName outputDir hmake, ?_, rfl, ?_⟩
  · exact groupingCommands_length outputDir lgs hmake
  · unfold JSON.objectCounts
    rw [scan_GenerateProjectText]
    have h := groupingCommands_length outputDir lgs hmake
    simp only [Spec.visibleTargets, Spec.skipped] at h
    simp [Spec.descriptor, h]

/-- Witness of C2: the grouping of two sub-projects, five targets, one of them skipped. -/
theorem build_command_count_witness :
    (∀ lg ∈ Example.grouping, lg.Makefile.MakeProgram ≠ none)
      ∧ ∃ stp fout, CreateNewProjectFile Example.grouping "Foo" "/build" = .ok (stp, fout)
        ∧ stp.build_systems.length
            = 3 * Example.grouping.length
              + (Example.grouping.map (fun lg =>
                  (lg.Makefile.Targets.filter
                    (fun t =>
                      !(t.Name == "edit_cache" && UsingNCursesGUI lg.Makefile))).length)).sum
        ∧ fout.contents = stp.GenerateProjectText
        ∧ JSON.objectCounts stp.GenerateProjectText
            = [Example.grouping.length,
                3 * Example.grouping.length
                  + (Example.grouping.map (fun lg =>
                      (lg.Makefile.Targets.filter
                        (fun t =>
                          !(t.Name == "edit_cache"
                            && UsingNCursesGUI lg.Makefile))).length)).sum] :=
  ⟨by decide, build_command_count Example.grouping "Foo" "/build" (by decide)⟩

/-- The scanner counts the objects of each outermost array of a text, and is not misled
by braces inside string literals. -/
theorem sample_objectCounts :
    JSON.objectCounts "\x7b \"a\": [ ], \"b\": [ \x7b \"c\": [ \"\x7b\" ] \x7d, \x7b \x7d ] \x7d" = [0, 2]
      ∧ JSON.objectCounts "[ \x7b \x7d, \x7b \x7d, \"\x7b\", \x7b \x7d ]" = [3] := by
  decide


theorem make_ne_none (lgs : List cmLocalGenerator) (make : cmLocalGenerator → String)
    (hmake : ∀ lg ∈ lgs, lg.Makefile.MakeProgram = some (make lg)) :
    ∀ lg ∈ lgs, lg.Makefile.MakeProgram ≠ none := by
  intro lg hlg h
  rw [hmake lg hlg] at h
  cases h

theorem groupingCommands_of_make (D : String) (lgs : List cmLocalGenerator)
    (make : cmLocalGenerator → String)
    (hmake : ∀ lg ∈ lgs, lg.Makefile.MakeProgram = some (make lg)) :
    Spec.groupingCommands D lgs
      = lgs.flatMap (fun lg => Spec.subProjectCommands D lg.Makefile (make lg)) := by
  induction lgs with
  | nil => rfl
  | cons lg rest ih =>
    rw [groupingCommands_cons D rest lg (make lg) (hmake lg (List.mem_cons_self _ _)),
      ih (fun l hl => hmake l (List.mem_cons_of_mem _ hl)), List.flatMap_cons]

theorem map_filter_eq_flatMap {α β : Type} (p : α → Bool) (f : α → β) (l : List α) :
    (l.filter (fun t => !p t)).map f
      = l.flatMap (fun t => if p t = true then [] else [f t]) := by
  induction l with
  | nil => rfl
  | cons x xs ih =>
    rw [List.flatMap_cons, ← ih]
    by_cases h : p x = true
    · simp [List.filter_cons, h]
    · simp [List.filter_cons, h]

/-- C3: for every grouping whose sub-projects have make programs, the build-command list
built by `CreateNewProjectFile` is the concatenation, over the sub-projects in supplied
order, of the default, clean and depend commands followed by the commands of the
sub-project's visible targets in the order of its target list; and the folder list has
one entry per sub-project, in the same order. -/
theorem build_commands_in_order (lgs : List cmLocalGenerator)
    (projectName outputDir : String) (make : cmLocalGenerator → String)
    (hmake : ∀ lg ∈ lgs, lg.Makefile.MakeProgram = some (make lg)) :
    ∃ stp fout, CreateNewProjectFile lgs projectName outputDir = .ok (stp, fout)
      ∧ stp.build_systems
          = lgs.flatMap (fun lg =>
              Spec.defaultCommands outputDir lg.Makefile.ProjectName (make lg)
                ++ (Spec.visibleTargets lg.Makefile).map (fun t =>
                    Spec.targetCommand lg.Makefile.ProjectName (make lg)
                      lg.Makefile.CurrentDirectory t.Name))
      ∧ stp.folders.length = lgs.length
      ∧ stp.folders.map (fun f => f.path) = lgs.map (fun lg => lg.Makefile.HomeDirectory) := by
  refine ⟨_, _, CreateNewProjectFile_eq lgs projectName outputDir
    (make_ne_none lgs make hmake), ?_, ?_, ?_⟩
  · simp only [Spec.descriptor]
    rw [groupingCommands_of_make outputDir lgs make hmake]
    rfl
  · simp [Spec.descriptor]
  · simp [Spec.descriptor, Spec.folderEntry, Function.comp_def]

/-- Witness of C3: the grouping of two sub-projects. -/
theorem build_commands_in_order_witness :
    (∀ lg ∈ Example.grouping,
        lg.Makefile.MakeProgram = some (lg.Makefile.MakeProgram.getD ""))
      ∧ ∃ stp fout, CreateNewProjectFile Example.grouping "Foo" "/build" = .ok (stp, fout)
        ∧ stp.build_systems
            = Example.grouping.flatMap (fun lg =>
                Spec.defaultCommands "/build" lg.Makefile.ProjectName
                    (lg.Makefile.MakeProgram.getD "")
                  ++ (Spec.visibleTargets lg.Makefile).map (fun t =>
                      Spec.targetCommand lg.Makefile.ProjectName
                        (lg.Makefile.MakeProgram.getD "") lg.Makefile.CurrentDirectory t.Name))
        ∧ stp.folders.length = Example.grouping.length
        ∧ stp.folders.map (fun f => f.path)
            = Example.grouping.map (fun lg => lg.Makefile.HomeDirectory) :=
  ⟨by decide,
    build_commands_in_order Example.grouping "Foo" "/build"
      (fun lg => lg.Makefile.MakeProgram.getD "") (by decide)⟩

/-- The order of C3 on the grouping of two sub-projects: the names of the build commands
are those of Foo (default, clean, depend, then its targets) followed by those of Bar,
whose `edit_cache` target is left out. -/
theorem sample_build_command_names :
    (CreateNewProjectFile Example.grouping "Foo" "/build").toOption.map
        (fun r => r.1.build_systems.map (fun bs => bs.name))
      = some ["Foo: default", "Foo: clean", "Foo: depend", "Foo: all", "Foo: install",
          "Bar: default", "Bar: clean", "Bar: depend", "Bar: bar", "Bar: test"] := by
  decide

theorem cmd_of_mem_defaultCommands (D P M : String) (bs : BuildSystem)
    (h : bs ∈ Spec.defaultCommands D P M) :
    bs.cmd = [M] ∨ bs.cmd = [M, "clean"] ∨ bs.cmd = [M, "depend"] := by
  simp only [Spec.defaultCommands, List.mem_cons, List.mem_singleton, List.mem_nil_iff,
    or_false] at h
  rcases h with h | h | h <;> simp [h]

/-- C5: for every grouping whose sub-projects have make programs, every target `t` of
every sub-project contributes no build command if and only if `t` is named `edit_cache`
and the console-editor lookup is true for the sub-project, and exactly one build command
otherwise; so the commands of all other targets are present, and when the lookup is true
for every sub-project no build command runs the `edit_cache` target. -/
theorem edit_cache_omitted (lgs : List cmLocalGenerator) (projectName outputDir : String)
    (make : cmLocalGenerator → String)
    (hmake : ∀ lg ∈ lgs, lg.Makefile.MakeProgram = some (make lg)) :
    ∃ stp fout, CreateNewProjectFile lgs projectName outputDir = .ok (stp, fout)
      ∧ stp.build_systems
          = lgs.flatMap (fun lg =>
              Spec.defaultCommands outputDir lg.Makefile.ProjectName (make lg)
                ++ lg.Makefile.Targets.flatMap (fun t =>
                    if (t.Name == "edit_cache" && UsingNCursesGUI lg.Makefile) = true then []
                    else [Spec.targetCommand lg.Makefile.ProjectName (make lg)
                            lg.Makefile.CurrentDirectory t.Name]))
      ∧ (∀ lg ∈ lgs, ∀ t ∈ lg.Makefile.Targets,
          ¬ (t.Name = "edit_cache" ∧ UsingNCursesGUI lg.Makefile = true) →
            Spec.targetCommand lg.Makefile.ProjectName (make lg)
              lg.Makefile.CurrentDirectory t.Name ∈ stp.build_systems)
      ∧ ((∀ lg ∈ lgs, UsingNCursesGUI lg.Makefile = true) →
          ∀ bs ∈ stp.build_systems, ∀ M, bs.cmd ≠ [M, "edit_cache"]) := by
  have hbs : (Spec.descriptor lgs projectName outputDir).build_systems
      = lgs.flatMap (fun lg => Spec.subProjectCommands outputDir lg.Makefile (make lg)) :=
    groupingCommands_of_make outputDir lgs make hmake
  refine ⟨_, _, CreateNewProjectFile_eq lgs projectName outputDir
    (make_ne_none lgs make hmake), ?_, ?_, ?_⟩
  · rw [hbs]
    simp only [Spec.subProjectCommands, Spec.visibleTargets, map_filter_eq_flatMap]
    rfl
  · intro lg hlg t ht hskip
    rw [hbs, List.mem_flatMap]
    refine ⟨lg, hlg, ?_⟩
    simp only [Spec.subProjectCommands, List.mem_append, List.mem_map]
    right
    refine ⟨t, ?_, rfl⟩
    simp only [Spec.visibleTargets, List.mem_filter, Spec.skipped]
    refine ⟨ht, ?_⟩
    by_cases hn : t.Name = "edit_cache"
    · have hu : UsingNCursesGUI lg.Makefile ≠ true := fun hu => hskip ⟨hn, hu⟩
      simp [hn, hu]
    · simp [hn]
  · intro hall bs hbsmem M hcmd
    rw [hbs, List.mem_flatMap] at hbsmem
    obtain ⟨lg, hlg, hmem⟩ := hbsmem
    simp only [Spec.subProjectCommands, List.mem_append, List.mem_map] at hmem
    rcases hmem with hmem | ⟨t, ht, rfl⟩
    · rcases cmd_of_mem_defaultCommands _ _ _ _ hmem with h | h | h <;>
        rw [h] at hcmd <;> simp at hcmd
    · simp only [Spec.visibleTargets, List.mem_filter, Spec.skipped, hall lg hlg] at ht
      simp only [Spec.targetCommand, List.cons.injEq, and_true] at hcmd
      simp [hcmd.2] at ht

/-- Witness of C5: the grouping of two sub-projects, the second with an `edit_cache`
target and the console editor. -/
theorem edit_cache_omitted_witness :
    (∀ lg ∈ Example.grouping,
        lg.Makefile.MakeProgram = some (lg.Makefile.MakeProgram.getD ""))
      ∧ ∃ stp fout, CreateNewProjectFile Example.grouping "Foo" "/build" = .ok (stp, fout)
        ∧ stp.build_systems
            = Example.grouping.flatMap (fun lg =>
                Spec.defaultCommands "/build" lg.Makefile.ProjectName
                    (lg.Makefile.MakeProgram.getD "")
                  ++ lg.Makefile.Targets.flatMap (fun t =>
                      if (t.Name == "edit_cache" && UsingNCursesGUI lg.Makefile) = true then []
                      else [Spec.targetCommand lg.Makefile.ProjectName
                              (lg.Makefile.MakeProgram.getD "")
                              lg.Makefile.CurrentDirectory t.Name]))
        ∧ (∀ lg ∈ Example.grouping, ∀ t ∈ lg.Makefile.Targets,
            ¬ (t.Name = "edit_cache" ∧ UsingNCursesGUI lg.Makefile = true) →
              Spec.targetCommand lg.Makefile.ProjectName (lg.Makefile.MakeProgram.getD "")
                lg.Makefile.CurrentDirectory t.Name ∈ stp.build_systems)
        ∧ ((∀ lg ∈ Example.grouping, UsingNCursesGUI lg.Makefile = true) →
            ∀ bs ∈ stp.build_systems, ∀ M, bs.cmd ≠ [M, "edit_cache"]) :=
  ⟨by decide,
    edit_cache_omitted Example.grouping "Foo" "/build"
      (fun lg => lg.Makefile.MakeProgram.getD "") (by decide)⟩

/-- The skip of C5 evaluated: with the console editor the `edit_cache` target of Bar
yields no build command and its other targets do; with a graphical editor it yields
one. -/
theorem sample_edit_cache_skip :
    (CreateNewProjectFile [⟨Example.barMakefile⟩] "Bar" "/build/bar").toOption.map
        (fun r => r.1.build_systems.map (fun bs => bs.cmd))
      = some [["/usr/bin/gmake"], ["/usr/bin/gmake", "clean"], ["/usr/bin/gmake", "depend"],
          ["/usr/bin/gmake", "bar"], ["/usr/bin/gmake", "test"]]
    ∧ (CreateNewProjectFile
          [⟨{ Example.barMakefile with EditCommand := "/usr/bin/cmake-gui" }⟩]
          "Bar" "/build/bar").toOption.map
        (fun r => r.1.build_systems.map (fun bs => bs.cmd))
      = some [["/usr/bin/gmake"], ["/usr/bin/gmake", "clean"], ["/usr/bin/gmake", "depend"],
          ["/usr/bin/gmake", "bar"], ["/usr/bin/gmake", "edit_cache"],
          ["/usr/bin/gmake", "test"]] := by
  decide


/-- C6: for the grouping with project name Foo, output directory /build and the single
sub-project named Foo with home /src, current directory /build, make program
/usr/bin/make and targets all and install, whatever the cache-editor command (so also
when the console-editor lookup is false), the built descriptor has file name
/build/Foo.sublime-project, which is the name of the file written, exactly one folder
entry, of path /src, and exactly five build commands, named in order Foo: default,
Foo: clean, Foo: depend, Foo: all, Foo: install. -/
theorem scenario_Foo (startOutputDirectory editCommand : String) :
    ∃ stp fout,
      CreateNewProjectFile
          [⟨{ HomeDirectory := "/src"
              StartOutputDirectory := startOutputDirectory
              CurrentDirectory := "/build"
              ProjectName := "Foo"
              Targets := [⟨"all"⟩, ⟨"install"⟩]
              MakeProgram := some "/usr/bin/make"
              EditCommand := editCommand }⟩]
          "Foo" "/build" = .ok (stp, fout)
        ∧ stp.filename = "/build/Foo.sublime-project"
        ∧ fout.name = "/build/Foo.sublime-project"
        ∧ stp.folders.map (fun f => f.path) = ["/src"]
        ∧ stp.build_systems.map (fun bs => bs.name)
            = ["Foo: default", "Foo: clean", "Foo: depend", "Foo: all", "Foo: install"] := by
  refine ⟨_, _, CreateNewProjectFile_eq _ "Foo" "/build" (by simp), ?_, ?_, ?_, ?_⟩
  · show "/build" ++ "/" ++ "Foo" ++ ".sublime-project" = "/build/Foo.sublime-project"
    decide
  · show "/build" ++ "/" ++ "Foo" ++ ".sublime-project" = "/build/Foo.sublime-project"
    decide
  · rfl
  · have hall : ("all" == "edit_cache") = false := by decide
    have hinstall : ("install" == "edit_cache") = false := by decide
    simp [Spec.descriptor, Spec.groupingCommands, Spec.subProjectCommands,
      Spec.defaultCommands, Spec.visibleTargets, Spec.skipped, Spec.targetCommand, hall,
      hinstall]

theorem defaultCommands_in_descriptor (lgs : List cmLocalGenerator)
    (projectName outputDir : String) (lg : cmLocalGenerator) (M : String) (hlg : lg ∈ lgs)
    (hM : lg.Makefile.MakeProgram = some M) :
    ∃ before after, (Spec.descriptor lgs projectName outputDir).build_systems
      = before ++ Spec.defaultCommands outputDir lg.Makefile.ProjectName M ++ after := by
  obtain ⟨pre, post, rfl⟩ := List.append_of_mem hlg
  refine ⟨Spec.groupingCommands outputDir pre,
    (Spec.visibleTargets lg.Makefile).map
        (fun t => Spec.targetCommand lg.Makefile.ProjectName M lg.Makefile.CurrentDirectory
          t.Name)
      ++ Spec.groupingCommands outputDir post, ?_⟩
  simp only [Spec.descriptor]
  rw [groupingCommands_split outputDir pre post lg M hM]
  simp [Spec.subProjectCommands]

/-- C9: for every sub-project with project name `P` and make program `M` of a grouping
with top-level output directory `D` whose sub-projects have make programs,
`CreateNewProjectFile` adds, next to each other and in this order, the three build
commands named `P: default`, `P: clean` and `P: depend`, each with working directory `D`
and shell false, with commands `[M]`, `[M, "clean"]` and `[M, "depend"]`; called from
`CreateProjectFile`, `D` is the start output directory of the first sub-project. -/
theorem default_triad (lgs : List cmLocalGenerator) (projectName outputDir : String)
    (lg : cmLocalGenerator) (M : String)
    (hmake : ∀ l ∈ lgs, l.Makefile.MakeProgram ≠ none) (hlg : lg ∈ lgs)
    (hM : lg.Makefile.MakeProgram = some M) :
    (∃ stp fout, CreateNewProjectFile lgs projectName outputDir = .ok (stp, fout)
      ∧ ∃ before after, stp.build_systems
          = before
            ++ [ { name := lg.Makefile.ProjectName ++ ": default", working_dir := outputDir,
                   cmd := [M], shell := false },
                 { name := lg.Makefile.ProjectName ++ ": clean", working_dir := outputDir,
                   cmd := [M, "clean"], shell := false },
                 { name := lg.Makefile.ProjectName ++ ": depend", working_dir := outputDir,
                   cmd := [M, "depend"], shell := false } ]
            ++ after)
    ∧ (∀ first rest, lgs = first :: rest →
        ∃ stp fout, CreateProjectFile lgs = .ok (stp, fout)
          ∧ ∃ before after, stp.build_systems
              = before
                ++ [ { name := lg.Makefile.ProjectName ++ ": default",
                       working_dir := first.Makefile.StartOutputDirectory,
                       cmd := [M], shell := false },
                     { name := lg.Makefile.ProjectName ++ ": clean",
                       working_dir := first.Makefile.StartOutputDirectory,
                       cmd := [M, "clean"], shell := false },
                     { name := lg.Makefile.ProjectName ++ ": depend",
                       working_dir := first.Makefile.StartOutputDirectory,
                       cmd := [M, "depend"], shell := false } ]
                ++ after) := by
  constructor
  · exact ⟨_, _, CreateNewProjectFile_eq lgs projectName outputDir hmake,
      defaultCommands_in_descriptor lgs projectName outputDir lg M hlg hM⟩
  · intro first rest hlgs
    subst hlgs
    exact ⟨_, _,
      CreateNewProjectFile_eq (first :: rest) first.Makefile.ProjectName
        first.Makefile.StartOutputDirectory hmake,
      defaultCommands_in_descriptor (first :: rest) first.Makefile.ProjectName
        first.Makefile.StartOutputDirectory lg M hlg hM⟩

/-- Witness of C9: the second sub-project of the grouping of two. -/
theorem default_triad_witness :
    (∀ l ∈ Example.grouping, l.Makefile.MakeProgram ≠ none)
      ∧ (⟨Example.barMakefile⟩ : cmLocalGenerator) ∈ Example.grouping
      ∧ Example.barMakefile.MakeProgram = some "/usr/bin/gmake"
      ∧ ∃ stp fout, CreateNewProjectFile Example.grouping "Foo" "/build" = .ok (stp, fout)
        ∧ ∃ before after, stp.build_systems
            = before
              ++ [ { name := Example.barMakefile.ProjectName ++ ": default",
                     working_dir := "/build", cmd := ["/usr/bin/gmake"], shell := false },
                   { name := Example.barMakefile.ProjectName ++ ": clean",
                     working_dir := "/build", cmd := ["/usr/bin/gmake", "clean"],
                     shell := false },
                   { name := Example.barMakefile.ProjectName ++ ": depend",
                     working_dir := "/build", cmd := ["/usr/bin/gmake", "depend"],
                     shell := false } ]
              ++ after :=
  ⟨by decide, by decide, by decide,
    (default_triad Example.grouping "Foo" "/build" ⟨Example.barMakefile⟩ "/usr/bin/gmake"
      (by decide) (by decide) (by decide)).1⟩

/-- The default triad of C9 evaluated through `CreateProjectFile` on the grouping of two:
the commands of Bar run in the start output directory of Foo, the first sub-project. -/
theorem sample_default_triad :
    (CreateProjectFile Example.grouping).toOption.map
        (fun r => (r.1.build_systems.drop 5).take 3)
      = some [ { name := "Bar: default", working_dir := "/build",
                 cmd := ["/usr/bin/gmake"], shell := false },
               { name := "Bar: clean", working_dir := "/build",
                 cmd := ["/usr/bin/gmake", "clean"], shell := false },
               { name := "Bar: depend", working_dir := "/build",
                 cmd := ["/usr/bin/gmake", "depend"], shell := false } ] := by
  decide

/-- C10: for every sub-project with project name `P`, make program `M` and current
directory `C` of a grouping whose sub-projects have make programs, and every target
named `T` of it that is not skipped, the loop body appends exactly one build command,
with name `P: T`, working directory `C`, command `[M, T]` and shell false, and this
command is in the descriptor `CreateNewProjectFile` builds. -/
theorem target_command (lgs : List cmLocalGenerator) (projectName outputDir : String)
    (lg : cmLocalGenerator) (M : String) (t : cmTarget)
    (hmake : ∀ l ∈ lgs, l.Makefile.MakeProgram ≠ none) (hlg : lg ∈ lgs)
    (hM : lg.Makefile.MakeProgram = some M) (ht : t ∈ lg.Makefile.Targets)
    (hvisible : ¬ (t.Name = "edit_cache" ∧ UsingNCursesGUI lg.Makefile = true)) :
    (∀ acc : SublimeTextProject,
        (CreateNewProjectFile.targetBody lg.Makefile M lg.Makefile.ProjectName acc
            t).build_systems
          = acc.build_systems
            ++ [ { name := lg.Makefile.ProjectName ++ ": " ++ t.Name,
                   working_dir := lg.Makefile.CurrentDirectory,
                   cmd := [M, t.Name], shell := false } ])
      ∧ ∃ stp fout, CreateNewProjectFile lgs projectName outputDir = .ok (stp, fout)
        ∧ ({ name := lg.Makefile.ProjectName ++ ": " ++ t.Name,
             working_dir := lg.Makefile.CurrentDirectory,
             cmd := [M, t.Name], shell := false } : BuildSystem) ∈ stp.build_systems := by
  have hns : ¬ Spec.skipped lg.Makefile t = true := by
    intro h
    simp only [Spec.skipped, Bool.and_eq_true, beq_iff_eq] at h
    exact hvisible h
  refine ⟨?_, _, _, CreateNewProjectFile_eq lgs projectName outputDir hmake, ?_⟩
  · intro acc
    rw [targetBody_eq, if_neg hns]
    rfl
  · obtain ⟨pre, post, rfl⟩ := List.append_of_mem hlg
    simp only [Spec.descriptor]
    rw [groupingCommands_split outputDir pre post lg M hM]
    simp only [List.mem_append, Spec.subProjectCommands, List.mem_map]
    left; right; right
    refine ⟨t, ?_, rfl⟩
    simp only [Spec.visibleTargets, List.mem_filter]
    exact ⟨ht, by simpa using hns⟩

/-- Witness of C10: the target `test` of the second sub-project of the grouping of two,
whose current directory differs from the output directory of the grouping. -/
theorem target_command_witness :
    (∀ l ∈ Example.grouping, l.Makefile.MakeProgram ≠ none)
      ∧ (⟨Example.barMakefile⟩ : cmLocalGenerator) ∈ Example.grouping
      ∧ Example.barMakefile.MakeProgram = some "/usr/bin/gmake"
      ∧ (⟨"test"⟩ : cmTarget) ∈ Example.barMakefile.Targets
      ∧ ¬ ((⟨"test"⟩ : cmTarget).Name = "edit_cache"
            ∧ UsingNCursesGUI Example.barMakefile = true)
      ∧ (∀ acc : SublimeTextProject,
          (CreateNewProjectFile.targetBody Example.barMakefile "/usr/bin/gmake"
              Example.barMakefile.ProjectName acc ⟨"test"⟩).build_systems
            = acc.build_systems
              ++ [ { name := Example.barMakefile.ProjectName ++ ": " ++ "test",
                     working_dir := Example.barMakefile.CurrentDirectory,
                     cmd := ["/usr/bin/gmake", "test"], shell := false } ])
      ∧ ∃ stp fout, CreateNewProjectFile Example.grouping "Foo" "/build" = .ok (stp, fout)
        ∧ ({ name := Example.barMakefile.ProjectName ++ ": " ++ "test",
             working_dir := Example.barMakefile.CurrentDirectory,
             cmd := ["/usr/bin/gmake", "test"], shell := false } : BuildSystem)
            ∈ stp.build_systems :=
  ⟨by decide, by decide, by decide, by decide, by decide,
    target_command Example.grouping "Foo" "/build" ⟨Example.barMakefile⟩ "/usr/bin/gmake"
      ⟨"test"⟩ (by decide) (by decide) (by decide) (by decide) (by decide)⟩


/-! ## Folders, failures and frames -/

/-- C11: for every grouping of `S` sub-projects that all have a make program, the folder
list built by `CreateNewProjectFile` has exactly `S` entries, entry `i` having the home
directory of sub-project `i` as path, the file exclude patterns `CMakeCache.txt` and
`cmake_install.cmake` and the folder exclude pattern `CMakeFiles`; nothing is
deduplicated, two sub-projects of one home directory give two equal entries. -/
theorem folder_entries (lgs : List cmLocalGenerator) (projectName outputDir : String)
    (hmake : ∀ lg ∈ lgs, lg.Makefile.MakeProgram ≠ none) :
    ∃ stp fout, CreateNewProjectFile lgs projectName outputDir = .ok (stp, fout)
      ∧ stp.folders.length = lgs.length
      ∧ stp.folders
          = lgs.map (fun lg =>
              ({ path := lg.Makefile.HomeDirectory
                 folder_exclude_patterns := ["CMakeFiles"]
                 file_exclude_patterns := ["CMakeCache.txt", "cmake_install.cmake"] }
                : Folder))
      ∧ (∀ i j, ∀ hi : i < lgs.length, ∀ hj : j < lgs.length,
          (lgs.get ⟨i, hi⟩).Makefile.HomeDirectory = (lgs.get ⟨j, hj⟩).Makefile.HomeDirectory →
            stp.folders[i]? = stp.folders[j]? ∧ stp.folders[i]? ≠ none) := by
  refine ⟨_, _, CreateNewProjectFile_eq lgs projectName outputDir hmake, ?_, rfl, ?_⟩
  · simp [Spec.descriptor]
  · intro i j hi hj hhome
    simp only [Spec.descriptor, List.getElem?_map, List.get_eq_getElem] at hhome ⊢
    rw [List.getElem?_eq_getElem hi, List.getElem?_eq_getElem hj]
    simp [Spec.folderEntry, hhome]

/-- Witness of C11: the grouping of two sub-projects. -/
theorem folder_entries_witness :
    (∀ lg ∈ Example.grouping, lg.Makefile.MakeProgram ≠ none)
      ∧ ∃ stp fout, CreateNewProjectFile Example.grouping "Foo" "/build" = .ok (stp, fout)
        ∧ stp.folders.length = Example.grouping.length
        ∧ stp.folders
            = Example.grouping.map (fun lg =>
                ({ path := lg.Makefile.HomeDirectory
                   folder_exclude_patterns := ["CMakeFiles"]
                   file_exclude_patterns := ["CMakeCache.txt", "cmake_install.cmake"] }
                  : Folder))
        ∧ (∀ i j, ∀ hi : i < Example.grouping.length, ∀ hj : j < Example.grouping.length,
            (Example.grouping.get ⟨i, hi⟩).Makefile.HomeDirectory
                = (Example.grouping.get ⟨j, hj⟩).Makefile.HomeDirectory →
              stp.folders[i]? = stp.folders[j]? ∧ stp.folders[i]? ≠ none) :=
  ⟨by decide, folder_entries Example.grouping "Foo" "/build" (by decide)⟩

/-- The folders of C11 evaluated: the same sub-project supplied twice gives the same
folder entry twice. -/
theorem sample_duplicate_folders :
    (CreateNewProjectFile [⟨Example.bareMakefile⟩, ⟨Example.bareMakefile⟩] "Bare"
        "/out").toOption.map (fun r => r.1.folders)
      = some [ { path := "/src", folder_exclude_patterns := ["CMakeFiles"],
                 file_exclude_patterns := ["CMakeCache.txt", "cmake_install.cmake"] },
               { path := "/src", folder_exclude_patterns := ["CMakeFiles"],
                 file_exclude_patterns := ["CMakeCache.txt", "cmake_install.cmake"] } ] := by
  decide


theorem buildSystemLoop_error (outputDir : String) (lgs : List cmLocalGenerator)
    (stp : SublimeTextProject) (hnone : ∃ lg ∈ lgs, lg.Makefile.MakeProgram = none) :
    CreateNewProjectFile.buildSystemLoop outputDir lgs stp
      = .error (.MissingRequiredValue "CMAKE_MAKE_PROGRAM") := by
  induction lgs generalizing stp with
  | nil =>
    obtain ⟨lg, hlg, _⟩ := hnone
    cases hlg
  | cons lg rest ih =>
    cases hM : lg.Makefile.MakeProgram with
    | none =>
      simp [CreateNewProjectFile.buildSystemLoop, cmLocalGenerator.GetMakefile,
        cmMakefile.GetRequiredDefinition, hM]
    | some M =>
      have hrest : ∃ l ∈ rest, l.Makefile.MakeProgram = none := by
        obtain ⟨l, hl, hl2⟩ := hnone
        rcases List.mem_cons.mp hl with rfl | hl3
        · rw [hM] at hl2
          cases hl2
        · exact ⟨l, hl3, hl2⟩
      simp only [CreateNewProjectFile.buildSystemLoop, cmLocalGenerator.GetMakefile,
        cmMakefile.GetRequiredDefinition, hM]
      exact ih _ hrest

theorem CreateNewProjectFile_error (lgs : List cmLocalGenerator)
    (projectName outputDir : String) (hnone : ∃ lg ∈ lgs, lg.Makefile.MakeProgram = none) :
    CreateNewProjectFile lgs projectName outputDir
      = .error (.MissingRequiredValue "CMAKE_MAKE_PROGRAM") := by
  unfold CreateNewProjectFile
  simp only [buildSystemLoop_error outputDir lgs _ hnone]

theorem all_or_some_none (lgs : List cmLocalGenerator) :
    (∀ lg ∈ lgs, lg.Makefile.MakeProgram ≠ none)
      ∨ ∃ lg ∈ lgs, lg.Makefile.MakeProgram = none := by
  by_cases h : ∃ lg ∈ lgs, lg.Makefile.MakeProgram = none
  · exact Or.inr h
  · left
    intro lg hlg hnone
    exact h ⟨lg, hlg, hnone⟩

/-- C13: processing a grouping fails with `MissingRequiredValue`, and then no descriptor
is rendered and no file is written, if and only if some sub-project of it has no
configured make program; it succeeds, with a descriptor and a written file, if and only
if every sub-project has one. The same holds through `CreateProjectFile` for a grouping
with a first sub-project. -/
theorem missing_make_program (lgs : List cmLocalGenerator) (projectName outputDir : String) :
    (CreateNewProjectFile lgs projectName outputDir
          = .error (.MissingRequiredValue "CMAKE_MAKE_PROGRAM")
        ↔ ∃ lg ∈ lgs, lg.Makefile.MakeProgram = none)
      ∧ ((∃ stp fout, CreateNewProjectFile lgs projectName outputDir = .ok (stp, fout))
        ↔ ∀ lg ∈ lgs, lg.Makefile.MakeProgram ≠ none)
      ∧ (∀ first rest, lgs = first :: rest →
          (CreateProjectFile lgs = .error (.MissingRequiredValue "CMAKE_MAKE_PROGRAM")
            ↔ ∃ lg ∈ lgs, lg.Makefile.MakeProgram = none)
          ∧ ((∃ stp fout, CreateProjectFile lgs = .ok (stp, fout))
            ↔ ∀ lg ∈ lgs, lg.Makefile.MakeProgram ≠ none)) := by
  have key : ∀ (pn od : String),
      (CreateNewProjectFile lgs pn od = .error (.MissingRequiredValue "CMAKE_MAKE_PROGRAM")
          ↔ ∃ lg ∈ lgs, lg.Makefile.MakeProgram = none)
        ∧ ((∃ stp fout, CreateNewProjectFile lgs pn od = .ok (stp, fout))
          ↔ ∀ lg ∈ lgs, lg.Makefile.MakeProgram ≠ none) := by
    intro pn od
    rcases all_or_some_none lgs with hall | hsome
    · have hok := CreateNewProjectFile_eq lgs pn od hall
      refine ⟨⟨fun h => ?_, fun h => ?_⟩, ⟨fun _ => hall, fun _ => ⟨_, _, hok⟩⟩⟩
      · rw [hok] at h
        cases h
      · obtain ⟨lg, hlg, hnone⟩ := h
        exact absurd hnone (hall lg hlg)
    · have herr := CreateNewProjectFile_error lgs pn od hsome
      refine ⟨⟨fun _ => hsome, fun _ => herr⟩, ⟨fun h => ?_, fun h => ?_⟩⟩
      · obtain ⟨stp, fout, hok⟩ := h
        rw [herr] at hok
        cases hok
      · obtain ⟨lg, hlg, hnone⟩ := hsome
        exact absurd hnone (h lg hlg)
  refine ⟨(key projectName outputDir).1, (key projectName outputDir).2, ?_⟩
  intro first rest hlgs
  subst hlgs
  exact key first.Makefile.ProjectName first.Makefile.StartOutputDirectory

/-- The failure of C13 evaluated: a grouping whose second sub-project has no make program
yields the error and no descriptor. -/
theorem sample_missing_make_program :
    CreateProjectFile [⟨Example.fooMakefile⟩, ⟨Example.brokenMakefile⟩]
        = .error (.MissingRequiredValue "CMAKE_MAKE_PROGRAM")
      ∧ (CreateProjectFile [⟨Example.fooMakefile⟩]).toOption.isSome = true := by
  constructor
  · rfl
  · rfl

/-- C12, as amended: `CreateProjectFile` succeeds on every grouping that has a first
sub-project and whose sub-projects all have make programs, whatever the targets of any
of them; in the descriptor it builds, every sub-project with no targets contributes
exactly the three default build commands, between the commands of the sub-projects before
it and those of the sub-projects after it, so a grouping of a single sub-project with no
targets has exactly these three build commands. With a name and an output directory
given, `CreateNewProjectFile` on a grouping with no sub-projects builds a descriptor whose
folders and build systems are empty and writes both arrays empty. -/
theorem missing_optional_data (first : cmLocalGenerator) (rest : List cmLocalGenerator)
    (hmake : ∀ l ∈ first :: rest, l.Makefile.MakeProgram ≠ none) :
    (∃ stp fout, CreateProjectFile (first :: rest) = .ok (stp, fout)
        ∧ (∀ (pre post : List cmLocalGenerator) (lg : cmLocalGenerator) (M : String),
            first :: rest = pre ++ lg :: post → lg.Makefile.MakeProgram = some M →
            lg.Makefile.Targets = [] →
              stp.build_systems
                = Spec.groupingCommands first.Makefile.StartOutputDirectory pre
                  ++ [ { name := lg.Makefile.ProjectName ++ ": default",
                         working_dir := first.Makefile.StartOutputDirectory,
                         cmd := [M], shell := false },
                       { name := lg.Makefile.ProjectName ++ ": clean",
                         working_dir := first.Makefile.StartOutputDirectory,
                         cmd := [M, "clean"], shell := false },
                       { name := lg.Makefile.ProjectName ++ ": depend",
                         working_dir := first.Makefile.StartOutputDirectory,
                         cmd := [M, "depend"], shell := false } ]
                  ++ Spec.groupingCommands first.Makefile.StartOutputDirectory post)
        ∧ (∀ M : String, rest = [] → first.Makefile.MakeProgram = some M →
            first.Makefile.Targets = [] →
              stp.build_systems
                = [ { name := first.Makefile.ProjectName ++ ": default",
                      working_dir := first.Makefile.StartOutputDirectory,
                      cmd := [M], shell := false },
                    { name := first.Makefile.ProjectName ++ ": clean",
                      working_dir := first.Makefile.StartOutputDirectory,
                      cmd := [M, "clean"], shell := false },
                    { name := first.Makefile.ProjectName ++ ": depend",
                      working_dir := first.Makefile.StartOutputDirectory,
                      cmd := [M, "depend"], shell := false } ]))
      ∧ (∀ projectName outputDir : String,
          ∃ stp fout, CreateNewProjectFile [] projectName outputDir = .ok (stp, fout)
            ∧ stp.folders = [] ∧ stp.build_systems = []
            ∧ fout.contents
                = "\x7b\n    \"name\": \"" ++ escapeStringForJSON projectName
                  ++ "\",\n    \"folders\":\n    [\n    ],\n    \"build_systems\":\n    [\n    ]\n\x7d\n") := by
  have hsub : ∀ (D : String) (lg : cmLocalGenerator) (M : String),
      lg.Makefile.Targets = [] →
      Spec.subProjectCommands D lg.Makefile M
        = [ { name := lg.Makefile.ProjectName ++ ": default", working_dir := D,
              cmd := [M], shell := false },
            { name := lg.Makefile.ProjectName ++ ": clean", working_dir := D,
              cmd := [M, "clean"], shell := false },
            { name := lg.Makefile.ProjectName ++ ": depend", working_dir := D,
              cmd := [M, "depend"], shell := false } ] := by
    intro D lg M hT
    simp [Spec.subProjectCommands, Spec.defaultCommands, Spec.visibleTargets, hT]
  refine ⟨⟨_, _, CreateNewProjectFile_eq (first :: rest) first.Makefile.ProjectName
    first.Makefile.StartOutputDirectory hmake, ?_, ?_⟩, ?_⟩
  · intro pre post lg M hsplit hM hT
    simp only [Spec.descriptor]
    rw [hsplit, groupingCommands_split _ pre post lg M hM, hsub _ lg M hT]
  · intro M hrest hM hT
    subst hrest
    simp only [Spec.descriptor]
    rw [groupingCommands_cons _ [] first M hM, hsub _ first M hT]
    simp [Spec.groupingCommands]
  · intro projectName outputDir
    refine ⟨_, _, CreateNewProjectFile_eq [] projectName outputDir (by simp), rfl, rfl, ?_⟩
    simp only [Spec.descriptor, Spec.groupingCommands, List.map_nil, List.flatMap_nil,
      GenerateProjectText, appendObjects_nil, String.append_assoc]
    rfl

/-- Witness of C12 as amended: the grouping of Foo, which has targets, followed by the
sub-project without targets. -/
theorem missing_optional_data_witness :
    (∀ l ∈ (⟨Example.fooMakefile⟩ : cmLocalGenerator) :: [⟨Example.bareMakefile⟩],
        l.Makefile.MakeProgram ≠ none)
      ∧ (∃ stp fout,
          CreateProjectFile (⟨Example.fooMakefile⟩ :: [⟨Example.bareMakefile⟩])
              = .ok (stp, fout)
          ∧ (∀ (pre post : List cmLocalGenerator) (lg : cmLocalGenerator) (M : String),
              (⟨Example.fooMakefile⟩ : cmLocalGenerator) :: [⟨Example.bareMakefile⟩]
                  = pre ++ lg :: post →
              lg.Makefile.MakeProgram = some M → lg.Makefile.Targets = [] →
                stp.build_systems
                  = Spec.groupingCommands Example.fooMakefile.StartOutputDirectory pre
                    ++ [ { name := lg.Makefile.ProjectName ++ ": default",
                           working_dir := Example.fooMakefile.StartOutputDirectory,
                           cmd := [M], shell := false },
                         { name := lg.Makefile.ProjectName ++ ": clean",
                           working_dir := Example.fooMakefile.StartOutputDirectory,
                           cmd := [M, "clean"], shell := false },
                         { name := lg.Makefile.ProjectName ++ ": depend",
                           working_dir := Example.fooMakefile.StartOutputDirectory,
                           cmd := [M, "depend"], shell := false } ]
                    ++ Spec.groupingCommands Example.fooMakefile.StartOutputDirectory post)
          ∧ (∀ M : String, [⟨Example.bareMakefile⟩] = ([] : List cmLocalGenerator) →
              Example.fooMakefile.MakeProgram = some M →
              Example.fooMakefile.Targets = [] →
                stp.build_systems
                  = [ { name := Example.fooMakefile.ProjectName ++ ": default",
                        working_dir := Example.fooMakefile.StartOutputDirectory,
                        cmd := [M], shell := false },
                      { name := Example.fooMakefile.ProjectName ++ ": clean",
                        working_dir := Example.fooMakefile.StartOutputDirectory,
                        cmd := [M, "clean"], shell := false },
                      { name := Example.fooMakefile.ProjectName ++ ": depend",
                        working_dir := Example.fooMakefile.StartOutputDirectory,
                        cmd := [M, "depend"], shell := false } ]))
      ∧ (∀ projectName outputDir : String,
          ∃ stp fout, CreateNewProjectFile [] projectName outputDir = .ok (stp, fout)
            ∧ stp.folders = [] ∧ stp.build_systems = []
            ∧ fout.contents
                = "\x7b\n    \"name\": \"" ++ escapeStringForJSON projectName
                  ++ "\",\n    \"folders\":\n    [\n    ],\n    \"build_systems\":\n    [\n    ]\n\x7d\n") :=
  ⟨by decide,
    missing_optional_data ⟨Example.fooMakefile⟩ [⟨Example.bareMakefile⟩] (by decide)⟩

/-- The builder of C12 evaluated where targets are missing: a sub-project without
targets alone, and after a sub-project with targets, gives its three default build
commands and no failure. -/
theorem sample_missing_targets :
    (CreateProjectFile [⟨Example.bareMakefile⟩]).toOption.map
        (fun r => r.1.build_systems)
      = some [ { name := "Bare: default", working_dir := "/out", cmd := ["make"] },
               { name := "Bare: clean", working_dir := "/out", cmd := ["make", "clean"] },
               { name := "Bare: depend", working_dir := "/out", cmd := ["make", "depend"] } ]
    ∧ (CreateProjectFile [⟨Example.fooMakefile⟩, ⟨Example.bareMakefile⟩]).toOption.map
        (fun r => r.1.build_systems.map (fun bs => bs.name))
      = some ["Foo: default", "Foo: clean", "Foo: depend", "Foo: all", "Foo: install",
          "Bare: default", "Bare: clean", "Bare: depend"]
    ∧ (CreateProjectFile [⟨Example.bareMakefile⟩, ⟨Example.fooMakefile⟩]).toOption.map
        (fun r => r.1.build_systems.map (fun bs => bs.name))
      = some ["Bare: default", "Bare: clean", "Bare: depend",
          "Foo: default", "Foo: clean", "Foo: depend", "Foo: all", "Foo: install"] := by
  decide

/-- Counterexample to C12 as stated: on the grouping with no sub-projects
`CreateProjectFile` reads the first element of an empty vector; it builds no descriptor,
so none with empty arrays. -/
theorem CreateProjectFile_empty_grouping :
    CreateProjectFile [] = .error .IndexOutOfRange
      ∧ ¬ ∃ stp fout, CreateProjectFile [] = .ok (stp, fout)
          ∧ stp.folders = [] ∧ stp.build_systems = [] := by
  refine ⟨rfl, ?_⟩
  rintro ⟨stp, fout, h, _⟩
  cases h


/-! ## Empty arrays, commands, frames -/

/-- C15: empty sequences are rendered as an empty array, never left out: a folder with no
exclude patterns renders `"folder_exclude_patterns": [  ],` and
`"file_exclude_patterns": [  ]`, a build command with an empty command renders
`"cmd": [  ]`, and a descriptor with no folders and no build commands renders the keys
`"folders"` and `"build_systems"`, each followed by a line with the opening bracket and a
line with the closing bracket, nothing between them. -/
theorem empty_arrays_rendered :
    (∀ path : String,
        Folder.GenerateString { path := path, folder_exclude_patterns := [],
                                file_exclude_patterns := [] }
          = "        \x7b\n            \"path\": \"" ++ escapeStringForJSON path ++ "\",\n"
            ++ "            \"folder_exclude_patterns\": [  ],\n"
            ++ "            \"file_exclude_patterns\": [  ]\n"
            ++ "        \x7d")
      ∧ (∀ name working_dir : String,
          BuildSystem.GenerateString { name := name, working_dir := working_dir, cmd := [],
                                       shell := false }
            = "        \x7b\n            \"name\": \"" ++ escapeStringForJSON name ++ "\",\n"
              ++ "            \"working_dir\": \"" ++ escapeStringForJSON working_dir ++ "\",\n"
              ++ "            \"cmd\": [  ]\n"
              ++ "        \x7d")
      ∧ (∀ name working_dir : String,
          BuildSystem.GenerateString { name := name, working_dir := working_dir, cmd := [],
                                       shell := true }
            = "        \x7b\n            \"name\": \"" ++ escapeStringForJSON name ++ "\",\n"
              ++ "            \"working_dir\": \"" ++ escapeStringForJSON working_dir ++ "\",\n"
              ++ "            \"shell\": true,\n"
              ++ "            \"cmd\": [  ]\n"
              ++ "        \x7d")
      ∧ (∀ filename name : String,
          GenerateProjectText { filename := filename, name := name, folders := [],
                                build_systems := [] }
            = "\x7b\n    \"name\": \"" ++ escapeStringForJSON name ++ "\",\n"
              ++ "    \"folders\":\n    [\n    ],\n"
              ++ "    \"build_systems\":\n    [\n    ]\n"
              ++ "\x7d\n") := by
  refine ⟨?_, ?_, ?_, ?_⟩
  · intro path
    simp only [Folder.GenerateString, appendQuotedElements_nil, String.append_assoc,
      String.empty_append]
    rfl
  · intro name working_dir
    simp only [BuildSystem.GenerateString, appendQuotedElements_nil, String.append_assoc,
      String.empty_append, Bool.false_eq_true, if_false]
    rfl
  · intro name working_dir
    simp only [BuildSystem.GenerateString, appendQuotedElements_nil, String.append_assoc,
      String.empty_append, if_true]
    rfl
  · intro filename name
    simp only [GenerateProjectText, appendObjects_nil, String.append_assoc]
    rfl

theorem run_frame (ops : List DescriptorOp) (stp : SublimeTextProject) :
    (DescriptorOp.run stp ops).filename = stp.filename
      ∧ (∃ added, (DescriptorOp.run stp ops).folders = stp.folders ++ added)
      ∧ (∃ added, (DescriptorOp.run stp ops).build_systems = stp.build_systems ++ added) := by
  induction ops generalizing stp with
  | nil => exact ⟨rfl, ⟨[], by simp [DescriptorOp.run]⟩, ⟨[], by simp [DescriptorOp.run]⟩⟩
  | cons op rest ih =>
    obtain ⟨h1, ⟨a2, h2⟩, ⟨a3, h3⟩⟩ := ih (DescriptorOp.apply stp op)
    have hrun : DescriptorOp.run stp (op :: rest)
        = DescriptorOp.run (DescriptorOp.apply stp op) rest := rfl
    rw [hrun, h1, h2, h3]
    cases op with
    | SetName n => exact ⟨rfl, ⟨a2, rfl⟩, ⟨a3, rfl⟩⟩
    | AddFolder f =>
      exact ⟨rfl, ⟨f :: a2, by simp [DescriptorOp.apply, AddFolder]⟩, ⟨a3, rfl⟩⟩
    | AddBuildSystem b =>
      exact ⟨rfl, ⟨a2, rfl⟩, ⟨b :: a3, by simp [DescriptorOp.apply, AddBuildSystem]⟩⟩

/-- C17: the descriptor model is append-only. `AddFolder f` changes the descriptor only
by making the folders the old folders followed by `f`, `AddBuildSystem b` only by making
the build systems the old ones followed by `b`, and `SetName` changes only the name.
After any sequence of these operations the old folders and build systems are an initial
part of the new ones, so every entry added before is still there, unchanged, at the same
index, and the file name is unchanged. -/
theorem descriptor_append_only (stp : SublimeTextProject) :
    (∀ f, stp.AddFolder f = { stp with folders := stp.folders ++ [f] })
      ∧ (∀ b, stp.AddBuildSystem b = { stp with build_systems := stp.build_systems ++ [b] })
      ∧ (∀ n, stp.SetName n = { stp with name := n })
      ∧ (∀ ops : List DescriptorOp,
          (DescriptorOp.run stp ops).filename = stp.filename
            ∧ (∃ added, (DescriptorOp.run stp ops).folders = stp.folders ++ added)
            ∧ (∃ added,
                (DescriptorOp.run stp ops).build_systems = stp.build_systems ++ added)
            ∧ (∀ (i : Nat) (f : Folder), stp.folders[i]? = some f →
                (DescriptorOp.run stp ops).folders[i]? = some f)
            ∧ (∀ (i : Nat) (b : BuildSystem), stp.build_systems[i]? = some b →
                (DescriptorOp.run stp ops).build_systems[i]? = some b)) := by
  refine ⟨fun _ => rfl, fun _ => rfl, fun _ => rfl, ?_⟩
  intro ops
  obtain ⟨h1, ⟨a2, h2⟩, ⟨a3, h3⟩⟩ := run_frame ops stp
  refine ⟨h1, ⟨a2, h2⟩, ⟨a3, h3⟩, ?_, ?_⟩
  · intro i f hf
    rw [h2]
    have hi : i < stp.folders.length := (List.getElem?_eq_some_iff.mp hf).1
    rw [List.getElem?_append_left hi, hf]
  · intro i b hb
    rw [h3]
    have hi : i < stp.build_systems.length := (List.getElem?_eq_some_iff.mp hb).1
    rw [List.getElem?_append_left hi, hb]

/-- The frame of C17 evaluated on a sequence of five operations. -/
theorem sample_descriptor_operations :
    DescriptorOp.run { filename := "f", name := "old", folders := [{ path := "/a" }] }
        [.AddBuildSystem { name := "b1" }, .SetName "new", .AddFolder { path := "/b" },
          .AddBuildSystem { name := "b2" }, .AddFolder { path := "/a" }]
      = { filename := "f", name := "new",
          folders := [{ path := "/a" }, { path := "/b" }, { path := "/a" }],
          build_systems := [{ name := "b1" }, { name := "b2" }] } := by
  decide


/-! ## Well-formed escaping and the editor lookup -/

theorem unescapeFrom_escaped (l : List Char) :
    JSON.unescapeFrom false (l.flatMap escapeChar) = some l := by
  induction l with
  | nil => rfl
  | cons c cs ih =>
    rw [List.flatMap_cons]
    by_cases h1 : c = '\\'
    · subst h1
      simp [escapeChar, JSON.unescapeFrom, ih, JSON.prepend]
    · by_cases h2 : c = '"'
      · subst h2
        simp [escapeChar, JSON.unescapeFrom, ih, JSON.prepend]
      · simp [escapeChar, JSON.unescapeFrom, h1, h2, ih, JSON.prepend]

/-- C19: for every string `s`, control characters included, `escapeStringForJSON s` is a
well-formed string-literal body: read from left to right, each backslash consuming the
character after it, it has no unescaped double quote and no dangling backslash, and the
reading that drops each consuming backslash and keeps the character after it gives back
exactly `s`; hence `escapeStringForJSON` is injective. -/
theorem escapeStringForJSON_well_formed :
    (∀ s : String, JSON.unescape (escapeStringForJSON s) = some s)
      ∧ Function.Injective escapeStringForJSON := by
  have hleft : ∀ s : String, JSON.unescape (escapeStringForJSON s) = some s := by
    intro s
    unfold JSON.unescape
    rw [escapeStringForJSON_data, unescapeFrom_escaped]
    rfl
  refine ⟨hleft, ?_⟩
  intro a b hab
  have h := hleft a
  rw [hab, hleft b] at h
  exact (Option.some.inj h).symm

/-- The reading of C19 on sample bodies: an unescaped double quote and a dangling
backslash are refused, escaped ones are read, a control character is kept. -/
theorem sample_unescape :
    JSON.unescape "a\"b" = none
      ∧ JSON.unescape "ab\\" = none
      ∧ JSON.unescape "a\\\"b\\\\" = some "a\"b\\"
      ∧ JSON.unescape (escapeStringForJSON "\t\"\n\\") = some "\t\"\n\\" := by
  decide

theorem stdFindFrom_ne_none_iff (pat : List Char) (s : List Char) (pos : Nat) :
    stdFindFrom pat s pos ≠ none ↔ pat <:+: s := by
  induction s generalizing pos with
  | nil =>
    simp only [stdFindFrom, List.isPrefixOf_iff_prefix]
    by_cases h : pat <+: []
    · simp [h, List.IsPrefix.isInfix h]
    · simp only [h, if_false, ne_eq, not_true_eq_false, false_iff]
      intro hin
      have hnil : pat = [] := List.infix_nil.mp hin
      exact h (hnil ▸ List.prefix_rfl)
  | cons c rest ih =>
    simp only [stdFindFrom, List.isPrefixOf_iff_prefix]
    rw [List.infix_cons_iff]
    by_cases h : pat <+: c :: rest
    · simp [h]
    · simp only [h, if_false, false_or]
      exact ih (pos + 1)

/-- C20: `UsingNCursesGUI` is true if and only if the value of `CMAKE_EDIT_COMMAND` has
`ccmake` as a contiguous part anywhere in it: `/usr/bin/ccmake` gives true,
`/usr/bin/cmake-gui` gives false, a path with `ccmake` in a directory name gives true.
The lookup matters only for targets named `edit_cache`: for any other target, and for a
target list without such a target, what the loop builds does not depend on the editor
command. -/
theorem editor_lookup :
    (∀ mf : cmMakefile,
        UsingNCursesGUI mf = true
          ↔ ∃ before after : String, mf.EditCommand = before ++ "ccmake" ++ after)
      ∧ (∀ mf : cmMakefile, mf.EditCommand = "/usr/bin/ccmake" → UsingNCursesGUI mf = true)
      ∧ (∀ mf : cmMakefile, mf.EditCommand = "/usr/bin/cmake-gui" → UsingNCursesGUI mf = false)
      ∧ (∀ mf : cmMakefile, mf.EditCommand = "/opt/ccmake-tools/bin/cmake-gui" →
          UsingNCursesGUI mf = true)
      ∧ (∀ (mf : cmMakefile) (editCommand make P : String) (stp : SublimeTextProject)
            (t : cmTarget), t.Name ≠ "edit_cache" →
          CreateNewProjectFile.targetBody { mf with EditCommand := editCommand } make P stp t
            = CreateNewProjectFile.targetBody mf make P stp t)
      ∧ (∀ (mf : cmMakefile) (editCommand make P : String) (stp : SublimeTextProject)
            (ts : List cmTarget), (∀ t ∈ ts, t.Name ≠ "edit_cache") →
          ts.foldl (CreateNewProjectFile.targetBody { mf with EditCommand := editCommand }
              make P) stp
            = ts.foldl (CreateNewProjectFile.targetBody mf make P) stp) := by
  have hbody : ∀ (mf : cmMakefile) (editCommand make P : String) (stp : SublimeTextProject)
      (t : cmTarget), t.Name ≠ "edit_cache" →
      CreateNewProjectFile.targetBody { mf with EditCommand := editCommand } make P stp t
        = CreateNewProjectFile.targetBody mf make P stp t := by
    intro mf editCommand make P stp t ht
    have hne : (t.Name == "edit_cache") = false := by simpa using ht
    simp [targetBody_eq, Spec.skipped, hne]
  refine ⟨?_, ?_, ?_, ?_, hbody, ?_⟩
  · intro mf
    have hfind : UsingNCursesGUI mf = true ↔ "ccmake".data <:+: mf.EditCommand.data := by
      rw [← stdFindFrom_ne_none_iff _ _ 0]
      simp [UsingNCursesGUI, stdFind, cmMakefile.GetDefinition]
    rw [hfind]
    constructor
    · rintro ⟨pre, post, h⟩
      refine ⟨⟨pre⟩, ⟨post⟩, ?_⟩
      apply String.ext
      simp only [String.data_append]
      exact h.symm
    · rintro ⟨before, after, h⟩
      refine ⟨before.data, after.data, ?_⟩
      rw [h]
      simp only [String.data_append]
  · intro mf h
    simp only [UsingNCursesGUI, cmMakefile.GetDefinition, h]
    decide
  · intro mf h
    simp only [UsingNCursesGUI, cmMakefile.GetDefinition, h]
    decide
  · intro mf h
    simp only [UsingNCursesGUI, cmMakefile.GetDefinition, h]
    decide
  · intro mf editCommand make P stp ts hts
    induction ts generalizing stp with
    | nil => rfl
    | cons t rest ih =>
      rw [List.foldl_cons, List.foldl_cons, hbody mf editCommand make P stp t
        (hts t (List.mem_cons_self _ _))]
      exact ih _ (fun x hx => hts x (List.mem_cons_of_mem _ hx))


/-! ## Index-tested loops and joins -/

theorem intercalate_go_append (x y sep : String) (l : List String) :
    String.intercalate.go (x ++ y) sep l = x ++ String.intercalate.go y sep l := by
  induction l generalizing y with
  | nil => rfl
  | cons a as ih =>
    simp only [String.intercalate.go]
    rw [String.append_assoc, String.append_assoc, ← String.append_assoc y sep a, ih]

theorem intercalate_cons_cons (sep a b : String) (l : List String) :
    String.intercalate sep (a :: b :: l) = a ++ sep ++ String.intercalate sep (b :: l) := by
  simp only [String.intercalate, String.intercalate.go]
  rw [intercalate_go_append]

theorem intercalate_singleton (sep a : String) : String.intercalate sep [a] = a := rfl

theorem appendObjects_eq_intercalate {α : Type} [Inhabited α] (render : α → String)
    (v : List α) (text : String) :
    appendObjects render v text
      = text ++ String.intercalate ",\n" (v.map render)
          ++ (if v.isEmpty then "" else "\n") := by
  induction v generalizing text with
  | nil => simp [appendObjects_nil, String.intercalate]
  | cons x xs ih =>
    rw [appendObjects_cons, ih]
    cases xs with
    | nil => simp [String.intercalate, String.intercalate.go]
    | cons y ys =>
      have hsep : ("," : String) ++ "\n" = ",\n" := by decide
      simp only [List.isEmpty_cons, Bool.false_eq_true, if_false, List.map_cons,
        intercalate_cons_cons, String.append_assoc, hsep]

theorem appendQuotedElements_eq_intercalate (v : List String) (acc : String) :
    appendQuotedElements v acc
      = acc ++ String.intercalate ", "
          (v.map (fun s => "\"" ++ escapeStringForJSON s ++ "\"")) := by
  induction v generalizing acc with
  | nil => simp [appendQuotedElements_nil, String.intercalate]
  | cons x xs ih =>
    rw [appendQuotedElements_cons, ih]
    cases xs with
    | nil => simp [String.intercalate, String.intercalate.go]
    | cons y ys =>
      simp only [List.isEmpty_cons, Bool.false_eq_true, if_false, List.map_cons,
        intercalate_cons_cons, String.append_assoc]

/-- C18: the index-tested loops compute exactly a join. For every descriptor the body of
the folders array in `GenerateProjectText` is the `Folder::GenerateString` renderings
joined by `",\n"`, followed by one line break when there is at least one folder; the body
of the build-systems array is the `BuildSystem::GenerateString` renderings joined the
same way; inside each object the body of the command array and of each exclude-pattern
array is the quoted escaped elements joined by `", "`. A join of `n` entries has `n - 1`
separators for `n ≥ 1` and none for `n = 0`: the join of no entry is empty, the join of
one entry is the entry, and each further entry brings one separator. -/
theorem loops_are_joins :
    (∀ stp : SublimeTextProject,
        stp.GenerateProjectText
          = "\x7b\n" ++ ("    \"name\": \"" ++ escapeStringForJSON stp.name ++ "\",\n")
            ++ "    \"folders\":\n" ++ "    [\n"
            ++ String.intercalate ",\n" (stp.folders.map Folder.GenerateString)
            ++ (if stp.folders.isEmpty then "" else "\n")
            ++ "    ],\n" ++ "    \"build_systems\":\n" ++ "    [\n"
            ++ String.intercalate ",\n" (stp.build_systems.map BuildSystem.GenerateString)
            ++ (if stp.build_systems.isEmpty then "" else "\n")
            ++ "    ]\n" ++ "\x7d\n")
      ∧ (∀ bs : BuildSystem,
          bs.GenerateString
            = "        \x7b\n"
              ++ ("            \"name\": \"" ++ escapeStringForJSON bs.name ++ "\",\n")
              ++ ("            \"working_dir\": \"" ++ escapeStringForJSON bs.working_dir
                    ++ "\",\n")
              ++ (if bs.shell then "            \"shell\": true,\n" else "")
              ++ "            \"cmd\": [ "
              ++ String.intercalate ", "
                  (bs.cmd.map (fun s => "\"" ++ escapeStringForJSON s ++ "\""))
              ++ " ]\n" ++ "        \x7d")
      ∧ (∀ f : Folder,
          f.GenerateString
            = "        \x7b\n"
              ++ ("            \"path\": \"" ++ escapeStringForJSON f.path ++ "\",\n")
              ++ "            \"folder_exclude_patterns\": [ "
              ++ String.intercalate ", "
                  (f.folder_exclude_patterns.map
                    (fun s => "\"" ++ escapeStringForJSON s ++ "\""))
              ++ " ],\n"
              ++ "            \"file_exclude_patterns\": [ "
              ++ String.intercalate ", "
                  (f.file_exclude_patterns.map
                    (fun s => "\"" ++ escapeStringForJSON s ++ "\""))
              ++ " ]\n" ++ "        \x7d")
      ∧ (∀ sep : String, String.intercalate sep [] = "")
      ∧ (∀ sep a : String, String.intercalate sep [a] = a)
      ∧ (∀ (sep a b : String) (l : List String),
          String.intercalate sep (a :: b :: l)
            = a ++ sep ++ String.intercalate sep (b :: l)) := by
  refine ⟨?_, ?_, ?_, ?_, ?_, ?_⟩
  · intro stp
    simp only [GenerateProjectText, appendObjects_eq_intercalate]
  · intro bs
    simp only [BuildSystem.GenerateString, appendQuotedElements_eq_intercalate]
    cases bs.shell <;> simp [String.append_assoc]
  · intro f
    simp only [Folder.GenerateString, appendQuotedElements_eq_intercalate,
      String.empty_append]
  · intro sep
    rfl
  · intro sep a
    rfl
  · intro sep a b l
    exact intercalate_cons_cons sep a b l


/-! ## Fields of a build command -/

theorem keyScan_nil (st : KeyState) : keyScan st [] = st := rfl

theorem keyScan_cons (st : KeyState) (c : Char) (cs : List Char) :
    keyScan st (c :: cs) = keyScan (keyStep st c) cs := rfl

theorem keyScan_append (st : KeyState) (a b : List Char) :
    keyScan st (a ++ b) = keyScan (keyScan st a) b := by
  simp [keyScan, List.foldl_append]

theorem keyScan_escaped_data (l cur : List Char) (last : Option (List Char))
    (ks : List String) :
    keyScan ⟨true, false, cur, last, ks⟩ (l.flatMap escapeChar)
      = ⟨true, false, cur ++ l.flatMap escapeChar, last, ks⟩ := by
  induction l generalizing cur with
  | nil => simp [keyScan_nil]
  | cons c cs ih =>
    rw [List.flatMap_cons, keyScan_append]
    by_cases h1 : c = '\\'
    · subst h1
      simp [escapeChar, keyScan_cons, keyScan_nil, keyStep, ih]
    · by_cases h2 : c = '"'
      · subst h2
        simp [escapeChar, keyScan_cons, keyScan_nil, keyStep, ih]
      · simp [escapeChar, keyScan_cons, keyScan_nil, keyStep, h1, h2, ih]

theorem keyScan_escapeStringForJSON (s : String) (cur : List Char)
    (last : Option (List Char)) (ks : List String) :
    keyScan ⟨true, false, cur, last, ks⟩ (escapeStringForJSON s).data
      = ⟨true, false, cur ++ (escapeStringForJSON s).data, last, ks⟩ := by
  rw [escapeStringForJSON_data, keyScan_escaped_data]

theorem keyScan_appendQuotedElements (v : List String) (acc : String) (st : KeyState)
    (last : Option (List Char)) (ks : List String)
    (hacc : keyScan st acc.data = ⟨false, false, [], last, ks⟩) :
    ∃ last2, keyScan st (appendQuotedElements v acc).data = ⟨false, false, [], last2, ks⟩ := by
  induction v generalizing acc last with
  | nil => exact ⟨last, by simpa [appendQuotedElements_nil] using hacc⟩
  | cons x xs ih =>
    rw [appendQuotedElements_cons]
    cases xs with
    | nil =>
      apply ih _ (some (escapeStringForJSON x).data)
      simp [keyScan_append, hacc, keyScan_cons, keyScan_nil, keyStep,
        keyScan_escapeStringForJSON]
    | cons y ys =>
      apply ih _ none
      simp [keyScan_append, hacc, keyScan_cons, keyScan_nil, keyStep,
        keyScan_escapeStringForJSON]

theorem keys_BuildSystem_GenerateString (bs : BuildSystem) :
    JSON.keys bs.GenerateString
      = if bs.shell then ["name", "working_dir", "shell", "cmd"]
        else ["name", "working_dir", "cmd"] := by
  unfold JSON.keys BuildSystem.GenerateString
  simp only [String.data_append, keyScan_append]
  cases hshell : bs.shell
  · obtain ⟨last2, h⟩ := keyScan_appendQuotedElements bs.cmd
      ("" ++ "        \x7b\n" ++ ("            \"name\": \"" ++ escapeStringForJSON bs.name ++ "\",\n")
        ++ ("            \"working_dir\": \"" ++ escapeStringForJSON bs.working_dir ++ "\",\n")
        ++ "            \"cmd\": [ ")
      {} none ["name", "working_dir", "cmd"]
      (by simp [keyScan_append, keyScan_cons, keyScan_nil, keyStep,
            keyScan_escapeStringForJSON])
    simp only [Bool.false_eq_true, if_false]
    rw [h]
    simp [keyScan_cons, keyScan_nil, keyStep]
  · obtain ⟨last2, h⟩ := keyScan_appendQuotedElements bs.cmd
      ("" ++ "        \x7b\n" ++ ("            \"name\": \"" ++ escapeStringForJSON bs.name ++ "\",\n")
        ++ ("            \"working_dir\": \"" ++ escapeStringForJSON bs.working_dir ++ "\",\n")
        ++ "            \"shell\": true,\n"
        ++ "            \"cmd\": [ ")
      {} none ["name", "working_dir", "shell", "cmd"]
      (by simp [keyScan_append, keyScan_cons, keyScan_nil, keyStep,
            keyScan_escapeStringForJSON])
    simp only [if_true]
    rw [h]
    simp [keyScan_cons, keyScan_nil, keyStep]


theorem foldl_AddToCommand_shell (parts : List String) (bs : BuildSystem) :
    (parts.foldl BuildSystem.AddToCommand bs).shell = bs.shell := by
  induction parts generalizing bs with
  | nil => rfl
  | cons p ps ih =>
    rw [List.foldl_cons, ih]
    rfl

/-- C14: for every build command `b`, `BuildSystem::GenerateString` writes the fields in
the fixed order name, working directory, optional shell, command: the text is the name
line, the working-directory line, the line `"shell": true,` exactly when `b.shell` is
true, and the command line; read back, the keys of the object are `name`,
`working_dir`, `shell`, `cmd` when `b.shell` is true and `name`, `working_dir`, `cmd`
otherwise, so a `shell` key is there if and only if `b.shell` is true. A build system
on which `SetShell` was never called has shell false and is rendered without shell
field. -/
theorem shell_field :
    (∀ bs : BuildSystem,
        bs.GenerateString
          = "        \x7b\n"
            ++ ("            \"name\": \"" ++ escapeStringForJSON bs.name ++ "\",\n")
            ++ ("            \"working_dir\": \"" ++ escapeStringForJSON bs.working_dir
                  ++ "\",\n")
            ++ (if bs.shell then "            \"shell\": true,\n" else "")
            ++ ("            \"cmd\": [ " ++ appendQuotedElements bs.cmd "" ++ " ]\n")
            ++ "        \x7d")
      ∧ (∀ bs : BuildSystem,
          JSON.keys bs.GenerateString
            = if bs.shell then ["name", "working_dir", "shell", "cmd"]
              else ["name", "working_dir", "cmd"])
      ∧ (∀ bs : BuildSystem, "shell" ∈ JSON.keys bs.GenerateString ↔ bs.shell = true)
      ∧ ({} : BuildSystem).shell = false
      ∧ (∀ (bs : BuildSystem) (b : Bool), (bs.SetShell b).shell = b)
      ∧ (∀ (name working_dir : String) (parts : List String),
          (parts.foldl BuildSystem.AddToCommand
              ((({} : BuildSystem).SetName name).SetWorkingDirectory working_dir)).shell
            = false
          ∧ JSON.keys (parts.foldl BuildSystem.AddToCommand
              ((({} : BuildSystem).SetName name).SetWorkingDirectory
                working_dir)).GenerateString
            = ["name", "working_dir", "cmd"]) := by
  refine ⟨?_, keys_BuildSystem_GenerateString, ?_, rfl, fun _ _ => rfl, ?_⟩
  · intro bs
    simp only [BuildSystem.GenerateString]
    rw [appendQuotedElements_eq_append bs.cmd (_ ++ _)]
    cases bs.shell
    · simp only [String.append_assoc, String.empty_append, String.append_empty,
        Bool.false_eq_true, if_false]
    · simp only [String.append_assoc, String.empty_append, if_true]
  · intro bs
    rw [keys_BuildSystem_GenerateString]
    cases bs.shell <;> simp
  · intro name working_dir parts
    have hshell : (parts.foldl BuildSystem.AddToCommand
        ((({} : BuildSystem).SetName name).SetWorkingDirectory working_dir)).shell
          = false := by
      rw [foldl_AddToCommand_shell]
      rfl
    refine ⟨hshell, ?_⟩
    rw [keys_BuildSystem_GenerateString, hshell]
    rfl

set_option maxRecDepth 16000 in
/-- The fields of C14 on sample build commands, one of which has a name that looks like
a shell field. -/
theorem sample_shell_field :
    BuildSystem.GenerateString { name := "b", working_dir := "/w", cmd := ["make"],
                                 shell := true }
        = "        \x7b\n            \"name\": \"b\",\n            \"working_dir\": \"/w\",\n"
          ++ "            \"shell\": true,\n            \"cmd\": [ \"make\" ]\n        \x7d"
      ∧ BuildSystem.GenerateString { name := "b", working_dir := "/w", cmd := ["make"] }
        = "        \x7b\n            \"name\": \"b\",\n            \"working_dir\": \"/w\",\n"
          ++ "            \"cmd\": [ \"make\" ]\n        \x7d"
      ∧ JSON.keys (BuildSystem.GenerateString { name := "\"shell\": true," })
        = ["name", "working_dir", "cmd"] := by
  decide

/-- The joins of C18 on samples: no separator for no entry and for one entry, two for
three entries. -/
theorem sample_joins :
    appendQuotedElements [] "[ " = "[ "
      ∧ appendQuotedElements ["a"] "[ " = "[ \"a\""
      ∧ appendQuotedElements ["a", "b", "c"] "[ " = "[ \"a\", \"b\", \"c\""
      ∧ appendObjects id ["x", "y"] "" = "x,\ny\n"
      ∧ appendObjects id ([] : List String) "" = "" := by
  decide

end SublimeText
